import Mathlib

/-!
# SearchInterface (assets/scripts.js): a debounced search-box widget

A shallow embedding of the `SearchInterface` controller class.  The widget
object, the part of the DOM it reads and writes, the window's timer table and
the suspended `performSearch` calls form one explicit state; every listener
registered in `init` is a state transformer, and `step` dispatches one
browser event to its listener.

Conventions of the embedding

* `String.prototype.toLowerCase` is a host built-in driven by the Unicode case
  tables; it is a parameter `toLowerCase` of every definition that depends on
  it, so the results hold for whatever the host computes.
* `String.prototype.trim` and `String.prototype.includes` are modelled on the
  list of characters of the string.
* `displayResults` interpolates `phrase`, `subtext` and `url` into markup that
  the host parses when it is assigned to `dropdown.innerHTML`.  When no field
  holds a character the HTML tokenizer treats specially (`plainText`), the
  rows read back by `querySelectorAll(".search-result")` are one per entry,
  carrying the position as `data-index`, the `url` as `data-url` and the
  texts (`renderRows`).  For any other fields the rows are whatever the
  parser of the host builds; they are a parameter `hostRows` of every
  definition that renders, so nothing is assumed about them beyond their
  being a list of elements in document order with an integer `data-index`.
  Results that relate rows to stored entries are stated for plain-text
  datasets (`plainResults`, `ReachablePlain`).
* The page's markup is not part of the script; the dropdown element is taken
  to start without any `.search-result` row and without the `show` class.
* `async performSearch` is split at its only `await`: `performSearch` runs
  the synchronous prefix and records the suspended call, `performSearchResume`
  runs the rest once the fetch has settled.
-/

namespace SearchInterface

/-! ## Host string operations -/

/-- White space and line terminators removed by `String.prototype.trim`
(ECMAScript `WhiteSpace` and `LineTerminator` productions). -/
def isTrimChar (c : Char) : Bool :=
  let n := c.toNat
  n == 0x09 || n == 0x0A || n == 0x0B || n == 0x0C || n == 0x0D || n == 0x20 ||
  n == 0xA0 || n == 0x1680 || (0x2000 ≤ n && n ≤ 0x200A) || n == 0x2028 ||
  n == 0x2029 || n == 0x202F || n == 0x205F || n == 0x3000 || n == 0xFEFF

/-- Characters of `s.trim()`. -/
def trimChars (cs : List Char) : List Char :=
  ((cs.dropWhile isTrimChar).reverse.dropWhile isTrimChar).reverse

/-- Model of `s.trim()`. -/
def trim (s : String) : String :=
  String.mk (trimChars s.data)

/-- Whether `s` starts with the characters `t`. -/
def startsWithChars : List Char → List Char → Bool
  | _, [] => true
  | [], _ :: _ => false
  | c :: cs, d :: ds => c == d && startsWithChars cs ds

/-- Scan of `s` for an occurrence of `t`, position by position. -/
def includesChars : List Char → List Char → Bool
  | [], t => startsWithChars [] t
  | c :: cs, t => startsWithChars (c :: cs) t || includesChars cs t

/-- Model of `s.includes(t)`. -/
def includes (s t : String) : Bool :=
  includesChars s.data t.data

/-- ASCII instance of `toLowerCase`: what the host computes on ASCII text. -/
def asciiLowerCase (s : String) : String :=
  String.mk (s.data.map Char.toLower)

/-! ## Data model -/

/-- One entry of `best_matches`. -/
structure SearchResult where
  phrase : String
  subtext : String
  url : String
  deriving DecidableEq

/-- A rendered `div.search-result` element. -/
structure ResultRow where
  /-- Attribute `data-index`, as read by `parseInt`. -/
  index : Int
  /-- Attribute `data-url`. -/
  url : String
  phrase : String
  subtext : String
  /-- Whether the element has the class `selected`. -/
  selected : Bool
  deriving DecidableEq

/-- Children of the dropdown element. -/
inductive Content where
  /-- Markup of the page before the first render. -/
  | blank
  /-- Element `div.query-message`. -/
  | queryMessage
  /-- Element `div.loading`. -/
  | loading
  /-- Element `div.no-results`. -/
  | noResults
  /-- The list of `div.search-result` elements. -/
  | results (rows : List ResultRow)
  deriving DecidableEq

/-- Model of `dropdown.querySelectorAll(".search-result")`. -/
def Content.rows : Content → List ResultRow
  | .results rows => rows
  | _ => []

/-- Apply `f` to every `.search-result` element. -/
def Content.mapRows (f : ResultRow → ResultRow) : Content → Content
  | .results rows => .results (rows.map f)
  | c => c

/-- Replace the `.search-result` element at position `i`. -/
def Content.setRow (i : Nat) (r : ResultRow) : Content → Content
  | .results rows => .results (rows.set i r)
  | c => c

/-- What a pending timeout runs when it expires. -/
inductive TimerAction where
  /-- Callback of `handleInput`: `this.performSearch(query)`. -/
  | search (query : String)
  /-- Callback of `handleBlur`: `this.hideDropdown()`. -/
  | hide
  deriving DecidableEq

/-- A pending timeout of the window. -/
structure Timer where
  id : Nat
  action : TimerAction
  deriving DecidableEq

/-- Body of the response of `fetch("temp.json")`. -/
inductive Body where
  /-- Rejection of `response.json()`, or a value whose fields cannot be read. -/
  | malformed
  /-- An object with its `success` flag and, when present, `best_matches`. -/
  | object (success : Bool) (best_matches : Option (List SearchResult))
  deriving DecidableEq

/-- How `fetch("temp.json")` settles. -/
inductive FetchOutcome where
  /-- The promise rejects. -/
  | networkError
  /-- The promise resolves with a response. -/
  | response (status : Nat) (body : Body)
  deriving DecidableEq

/-- Errors thrown inside `fetchSearchResults`. -/
inductive SearchError where
  | network
  | http (status : Nat)
  | parse
  | invalidDataFormat
  deriving DecidableEq

/-- Keys distinguished by `handleKeydown`. -/
inductive Key where
  | arrowDown
  | arrowUp
  | enter
  | escape
  | other
  deriving DecidableEq

/-- The widget together with the part of its environment it acts on. -/
structure Widget where
  /-- Property `searchInput.value`. -/
  inputValue : String
  /-- Children of `dropdown`. -/
  content : Content
  /-- Whether `dropdown` has the class `show`. -/
  shown : Bool
  /-- Field `debounceTimer` (`none` is `null`). -/
  debounceTimer : Option Nat
  selectedIndex : Int
  lastQuery : String
  lastResults : List SearchResult
  /-- Pending timeouts of the window. -/
  timers : List Timer
  /-- Identifier the next `setTimeout` returns. -/
  nextTimerId : Nat
  /-- Query arguments of the `performSearch` calls suspended at `await`. -/
  inflight : List String
  /-- Number of `fetch("temp.json")` calls made so far. -/
  fetchCalls : Nat
  /-- Arguments of the `window.open(url, "_blank")` calls made so far, oldest first. -/
  opened : List String
  deriving DecidableEq

/-! ## Methods of the class -/

/-- State right after `new SearchInterface()`. -/
def construct : Widget where
  inputValue := ""
  content := .blank
  shown := false
  debounceTimer := none
  selectedIndex := -1
  lastQuery := ""
  lastResults := []
  timers := []
  nextTimerId := 1
  inflight := []
  fetchCalls := 0
  opened := []

/-- Model of `setTimeout(callback, delay)`: registers the callback, returns its identifier. -/
def setTimeout (w : Widget) (action : TimerAction) : Widget × Nat :=
  ({ w with timers := w.timers ++ [⟨w.nextTimerId, action⟩], nextTimerId := w.nextTimerId + 1 },
    w.nextTimerId)

/-- Model of `clearTimeout(id)`. -/
def clearTimeout (w : Widget) (id : Nat) : Widget :=
  { w with timers := w.timers.filter (fun t => t.id != id) }

/-- Truthiness of the field `debounceTimer`. -/
def timerTruthy : Option Nat → Bool
  | some id => id != 0
  | none => false

/-- Model of `showDropdown()`. -/
def showDropdown (w : Widget) : Widget :=
  { w with shown := true }

/-- Model of `hideDropdown()`. -/
def hideDropdown (w : Widget) : Widget :=
  { w with shown := false, selectedIndex := -1 }

/-- Model of `showQueryMessage()`. -/
def showQueryMessage (w : Widget) : Widget :=
  showDropdown { w with content := .queryMessage }

/-- Model of `showLoading()`. -/
def showLoading (w : Widget) : Widget :=
  showDropdown { w with content := .loading }

/-- Model of `showNoResults(query)`. -/
def showNoResults (w : Widget) (_query : String) : Widget :=
  showDropdown { w with content := .noResults }

/-- Characters that are text to the HTML tokenizer both in element content
and in a double-quoted attribute value: all but `<`, `&`, the double quote,
NUL and carriage return. -/
def plainChar (c : Char) : Bool :=
  let n := c.toNat
  !(n == 0x3C || n == 0x26 || n == 0x22 || n == 0x00 || n == 0x0D)

/-- The text holds no character the HTML tokenizer treats specially. -/
def plainText (s : String) : Bool :=
  s.data.all plainChar

/-- The three fields of the entry are plain text. -/
def plainResult (r : SearchResult) : Bool :=
  plainText r.phrase && plainText r.subtext && plainText r.url

/-- Every field of every entry is plain text. -/
def plainResults (results : List SearchResult) : Bool :=
  results.all plainResult

/-- Rows of `results.map((result, index) => ...)` for plain-text fields, from
index `i` on: the element of each entry with its `data-index`, `data-url`
and texts. -/
def renderFrom : Nat → List SearchResult → List ResultRow
  | _, [] => []
  | i, r :: rs =>
    { index := (i : Int), url := r.url, phrase := r.phrase, subtext := r.subtext,
      selected := false } :: renderFrom (i + 1) rs

/-- Rows the template of `displayResults` denotes for plain-text fields. -/
def renderRows (results : List SearchResult) : List ResultRow :=
  renderFrom 0 results

/-- The `.search-result` elements in the dropdown after `displayResults`
assigned the markup of `results` to `innerHTML`: the rows of the template
when every field is plain text, and what the parser of the host builds
(`hostRows`) when a field holds markup characters. -/
def renderedRows (hostRows : List SearchResult → List ResultRow)
    (results : List SearchResult) : List ResultRow :=
  if plainResults results then renderRows results else hostRows results

/-- Model of `displayResults(results, query)`; the listeners of `attachResultListeners`
are the events `rowClick` and `rowHover` of `step`. -/
def displayResults (hostRows : List SearchResult → List ResultRow) (w : Widget)
    (results : List SearchResult) (query : String) : Widget :=
  if results.length == 0 then
    showNoResults w query
  else
    showDropdown { w with content := .results (renderedRows hostRows results) }

/-- Model of `result.classList.remove("selected")`. -/
def unselect (r : ResultRow) : ResultRow :=
  { r with selected := false }

/-- Model of `clearSelection()`. -/
def clearSelection (w : Widget) : Widget :=
  { w with content := w.content.mapRows unselect }

/-- Model of `results[i]` on the node list of rendered rows (`none` is `undefined`). -/
def rowAt (rows : List ResultRow) (i : Int) : Option ResultRow :=
  if i < 0 then none else rows[i.toNat]?

/-- Model of `updateSelection(results)`, `results` being the rendered rows. -/
def updateSelection (w : Widget) : Widget :=
  let w1 := clearSelection w
  if w1.selectedIndex ≥ 0 then
    match rowAt w1.content.rows w1.selectedIndex with
    | some row =>
      { w1 with content := w1.content.setRow w1.selectedIndex.toNat { row with selected := true } }
    | none => w1
  else w1

/-- Synchronous prefix of `performSearch(query)`, up to `await fetch("temp.json")`. -/
def performSearch (w : Widget) (query : String) : Widget :=
  let w1 := showLoading w
  { w1 with fetchCalls := w1.fetchCalls + 1, inflight := w1.inflight ++ [query] }

/-- Model of `response.ok`. -/
def responseOk (status : Nat) : Bool :=
  200 ≤ status && status ≤ 299

/-- The filter callback of `fetchSearchResults`. -/
def matchesQuery (toLowerCase : String → String) (query : String) (result : SearchResult) : Bool :=
  includes (toLowerCase result.phrase) (toLowerCase query) ||
  includes (toLowerCase result.subtext) (toLowerCase query)

/-- The `try` block of `fetchSearchResults(query)` once `fetch` has settled. -/
def fetchSearchResultsTry (toLowerCase : String → String) (query : String) :
    FetchOutcome → Except SearchError (List SearchResult)
  | .networkError => .error .network
  | .response status body =>
    if !responseOk status then .error (.http status)
    else
      match body with
      | .malformed => .error .parse
      | .object success best_matches =>
        if !success || best_matches.isNone then .error .invalidDataFormat
        else
          match best_matches with
          | some entries => .ok (entries.filter (matchesQuery toLowerCase query))
          | none => .error .invalidDataFormat

/-- Model of `fetchSearchResults(query)`: the `catch` block logs and rethrows. -/
def fetchSearchResults (toLowerCase : String → String) (query : String)
    (outcome : FetchOutcome) : Except SearchError (List SearchResult) :=
  match fetchSearchResultsTry toLowerCase query outcome with
  | .ok filteredResults => .ok filteredResults
  | .error error => .error error

/-- Rest of `performSearch(query)` after the `await`; an `error` result is an
exception leaving `performSearch`. -/
def performSearchResume (toLowerCase : String → String)
    (hostRows : List SearchResult → List ResultRow) (w : Widget) (query : String)
    (outcome : FetchOutcome) : Except SearchError Widget :=
  match fetchSearchResults toLowerCase query outcome with
  | .ok results =>
    .ok (displayResults hostRows { w with lastQuery := query, lastResults := results }
      results query)
  | .error _ =>
    .ok (showNoResults { w with lastQuery := "", lastResults := [] } query)

/-- Model of `handleFocus()`. -/
def handleFocus (hostRows : List SearchResult → List ResultRow) (w : Widget) : Widget :=
  let query := trim w.inputValue
  if query.length == 0 then showQueryMessage w
  else if w.lastResults.length > 0 then displayResults hostRows w w.lastResults w.lastQuery
  else if query.length ≥ 1 then performSearch w query
  else showQueryMessage w

/-- Model of `handleBlur()`. -/
def handleBlur (w : Widget) : Widget :=
  (setTimeout w .hide).1

/-- Model of `handleInput(e)`, `value` being `e.target.value`. -/
def handleInput (w : Widget) (value : String) : Widget :=
  let query := trim value
  let w1 :=
    if timerTruthy w.debounceTimer then
      match w.debounceTimer with
      | some id => clearTimeout w id
      | none => w
    else w
  if query.length == 0 then
    showQueryMessage { w1 with lastQuery := "", lastResults := [] }
  else if query.length < 1 then
    hideDropdown { w1 with lastQuery := "", lastResults := [] }
  else
    let (w2, id) := setTimeout w1 (.search query)
    { w2 with debounceTimer := some id }

/-- Model of `handleKeydown(e)`. -/
def handleKeydown (w : Widget) (key : Key) : Widget :=
  let results := w.content.rows
  match key with
  | .arrowDown =>
    updateSelection
      { w with selectedIndex := min (w.selectedIndex + 1) ((results.length : Int) - 1) }
  | .arrowUp =>
    updateSelection { w with selectedIndex := max (w.selectedIndex - 1) (-1) }
  | .enter =>
    if w.selectedIndex ≥ 0 then
      match rowAt results w.selectedIndex with
      | some row => hideDropdown { w with opened := w.opened ++ [row.url] }
      | none => w
    else w
  | .escape => handleBlur (hideDropdown w)
  | .other => w

/-- The `click` listener of the `k`-th rendered row; the document listener
the same click reaches afterwards can only repeat `hideDropdown()`. -/
def rowClick (w : Widget) (k : Nat) : Widget :=
  match w.content.rows[k]? with
  | some row => hideDropdown { w with opened := w.opened ++ [row.url] }
  | none => w

/-- The `mouseenter` listener of the `k`-th rendered row. -/
def rowMouseenter (w : Widget) (k : Nat) : Widget :=
  match w.content.rows[k]? with
  | some row =>
    let w1 := clearSelection w
    { w1 with content := w1.content.setRow k { row with selected := true },
              selectedIndex := row.index }
  | none => w

/-- The `click` listener of the document; `inside` tells whether the target
has an ancestor `.search-wrapper`. -/
def documentClick (w : Widget) (inside : Bool) : Widget :=
  if !inside then hideDropdown w else w

/-- Expiry of the pending timeout `id`. -/
def timerExpiry (w : Widget) (id : Nat) : Widget :=
  match w.timers.find? (fun t => t.id == id) with
  | none => w
  | some t =>
    let w1 := clearTimeout w id
    match t.action with
    | .search query => performSearch w1 query
    | .hide => hideDropdown w1

/-- Settlement of the fetch of the `k`-th suspended `performSearch` call. -/
def fetchSettled (toLowerCase : String → String)
    (hostRows : List SearchResult → List ResultRow) (w : Widget) (k : Nat)
    (outcome : FetchOutcome) : Widget :=
  match w.inflight[k]? with
  | none => w
  | some query =>
    let w1 := { w with inflight := w.inflight.eraseIdx k }
    match performSearchResume toLowerCase hostRows w1 query outcome with
    | .ok w2 => w2
    | .error _ => w1

/-- Events delivered to the widget. -/
inductive Event where
  /-- The user edits the input; `value` is the new text. -/
  | input (value : String)
  /-- The input receives focus. -/
  | focus
  /-- The input loses focus. -/
  | blur
  /-- A key is pressed in the input. -/
  | keydown (key : Key)
  /-- A click somewhere in the document, not on a result row. -/
  | click (inside : Bool)
  /-- A click on the `k`-th rendered row. -/
  | rowClick (k : Nat)
  /-- The pointer enters the `k`-th rendered row. -/
  | rowHover (k : Nat)
  /-- The pending timeout `id` expires. -/
  | timerExpiry (id : Nat)
  /-- The fetch of the `k`-th suspended search settles. -/
  | fetchSettled (k : Nat) (outcome : FetchOutcome)
  deriving DecidableEq

/-- One event, dispatched to the listener registered in `init`. -/
def step (toLowerCase : String → String) (hostRows : List SearchResult → List ResultRow)
    (w : Widget) : Event → Widget
  | .input value => handleInput { w with inputValue := value } value
  | .focus => handleFocus hostRows w
  | .blur => handleBlur w
  | .keydown key => handleKeydown w key
  | .click inside => documentClick w inside
  | .rowClick k => rowClick w k
  | .rowHover k => rowMouseenter w k
  | .timerExpiry id => timerExpiry w id
  | .fetchSettled k outcome => fetchSettled toLowerCase hostRows w k outcome

/-- The widget after a sequence of events. -/
def run (toLowerCase : String → String) (hostRows : List SearchResult → List ResultRow)
    (w : Widget) (events : List Event) : Widget :=
  events.foldl (step toLowerCase hostRows) w

/-- States reachable from construction. -/
inductive Reachable (toLowerCase : String → String)
    (hostRows : List SearchResult → List ResultRow) : Widget → Prop where
  | construct : Reachable toLowerCase hostRows construct
  | step {w : Widget} (e : Event) :
    Reachable toLowerCase hostRows w → Reachable toLowerCase hostRows (step toLowerCase hostRows w e)

/-- The event delivers no dataset with markup characters: a settled fetch
that carries a `best_matches` list carries plain-text entries only. -/
def PlainEvent : Event → Prop
  | .fetchSettled _ (.response _ (.object _ (some entries))) => plainResults entries = true
  | _ => True

/-- States reachable from construction by events whose datasets are plain text. -/
inductive ReachablePlain (toLowerCase : String → String)
    (hostRows : List SearchResult → List ResultRow) : Widget → Prop where
  | construct : ReachablePlain toLowerCase hostRows construct
  | step {w : Widget} (e : Event) :
    ReachablePlain toLowerCase hostRows w → PlainEvent e →
    ReachablePlain toLowerCase hostRows (step toLowerCase hostRows w e)

/-- Number of rendered result rows. -/
def rowCount (w : Widget) : Nat :=
  w.content.rows.length

/-- Pending timeouts that run a search. -/
def searchTimers (w : Widget) : List Timer :=
  w.timers.filter (fun t => t.action != .hide)

/-! ## Specification vocabulary -/

/-- The text `t` occurs in `s` as a contiguous run of characters. -/
def IsSubstring (t s : String) : Prop :=
  ∃ before after : List Char, s.data = before ++ t.data ++ after

/-- The fetch fails: network error, non-success status, unreadable body,
`success` false, or no `best_matches` collection. -/
def FetchFails : FetchOutcome → Prop
  | .networkError => True
  | .response status body =>
    responseOk status = false ∨
      match body with
      | .malformed => True
      | .object success best_matches => success = false ∨ best_matches = none

/-- A successful response carrying the dataset `entries`. -/
def successResponse (status : Nat) (entries : List SearchResult) : FetchOutcome :=
  .response status (.object true (some entries))

/-! ## Concrete scenarios -/

/-- The dataset of the Red Fox / Red Car scenario. -/
def redDataset : List SearchResult :=
  [⟨"Red Fox", "animal", "a.com"⟩, ⟨"Red Car", "vehicle", "b.com"⟩]

/-- A dataset with "cat" in a phrase and in a subtext. -/
def catDataset : List SearchResult :=
  [⟨"Category List", "index", "c.com"⟩, ⟨"Dogs", "see catalog", "d.com"⟩,
   ⟨"Birds", "wings", "e.com"⟩]

/-- The double quote character. -/
def doubleQuote : Char :=
  Char.ofNat 0x22

/-- A double-quoted attribute value as the HTML tokenizer reads it from the
interpolated text `s`: the characters before the first double quote. -/
def attributeValue (s : String) : String :=
  String.mk (s.data.takeWhile (fun c => c != doubleQuote))

/-- The scenario host: the rows a browser builds from the markup of
`displayResults` when the only markup character in the fields is the double
quote: one row per entry, whose `data-url` ends at the first double quote of
`url` (a double quote is text in element content and ends the attribute). -/
def quoteCuttingHost (results : List SearchResult) : List ResultRow :=
  (renderRows results).map (fun r => { r with url := attributeValue r.url })

/-- The URL `b.com/?q="x"`. -/
def quotedUrl : String :=
  String.mk ("b.com/?q=".data ++ [doubleQuote, 'x', doubleQuote])

/-- A dataset whose second URL holds double quotes. -/
def quotedDataset : List SearchResult :=
  [⟨"Red Fox", "animal", "a.com"⟩, ⟨"Red Car", "vehicle", quotedUrl⟩]

/-- The markup `<div class="search-result" data-index="-7" data-url="evil.com">x</div>`. -/
def injectedRowMarkup : String :=
  String.mk ("<div class=".data ++ [doubleQuote] ++ "search-result".data ++ [doubleQuote] ++
    " data-index=".data ++ [doubleQuote] ++ "-7".data ++ [doubleQuote] ++
    " data-url=".data ++ [doubleQuote] ++ "evil.com".data ++ [doubleQuote] ++ ">x</div>".data)

/-- Rows a browser builds, from index `i` on, when a phrase is
`injectedRowMarkup` and the other fields are plain text: the element of that
phrase is a second `.search-result` element, inside the row of its entry and
after it in document order, with `data-index` -7 and `data-url` `evil.com`. -/
def nestedRowsFrom : Nat → List SearchResult → List ResultRow
  | _, [] => []
  | i, r :: rs =>
    if r.phrase = injectedRowMarkup then
      { index := (i : Int), url := r.url, phrase := "x", subtext := r.subtext,
        selected := false } ::
      { index := -7, url := "evil.com", phrase := "", subtext := "", selected := false } ::
        nestedRowsFrom (i + 1) rs
    else
      { index := (i : Int), url := r.url, phrase := r.phrase, subtext := r.subtext,
        selected := false } :: nestedRowsFrom (i + 1) rs

/-- The host of the injected-row scenario. -/
def nestedRowHost (results : List SearchResult) : List ResultRow :=
  nestedRowsFrom 0 results

/-- A dataset whose only phrase is the markup of a result row. -/
def injectedDataset : List SearchResult :=
  [⟨injectedRowMarkup, "note", "a.com"⟩]

/-- The widget after the user typed `query`, the debounce timeout expired and
the fetch settled with `outcome`. -/
def afterSearch (query : String) (outcome : FetchOutcome) : Widget :=
  run asciiLowerCase quoteCuttingHost construct
    [.input query, .timerExpiry 1, .fetchSettled 0 outcome]

/-- The widget after a search for "red" rendered the two rows of `redDataset`
and the pointer entered the second row. -/
def secondRowHovered : Widget :=
  step asciiLowerCase quoteCuttingHost (afterSearch "red" (successResponse 200 redDataset))
    (.rowHover 1)

/-- The widget after one input event per element of `values`, in order, and
no other event in between. -/
def afterInputs (toLowerCase : String → String) (hostRows : List SearchResult → List ResultRow)
    (w : Widget) (values : List String) : Widget :=
  run toLowerCase hostRows w (values.map Event.input)

/-- The state `w'` is hidden, with no selection, and stores what `w` stores. -/
def HiddenFrom (w w' : Widget) : Prop :=
  w'.shown = false ∧ w'.selectedIndex = -1 ∧ w'.lastQuery = w.lastQuery ∧
    w'.lastResults = w.lastResults

/-- Facts about the timers that hold in every reachable state: timer
identifiers are fresh and positive, and the only pending search timeout is
the one recorded in `debounceTimer`. -/
structure Inv (w : Widget) : Prop where
  timerPos : 1 ≤ w.nextTimerId
  timerFresh : ∀ t ∈ w.timers, t.id < w.nextTimerId
  timerDebounce : ∀ t ∈ w.timers, t.action ≠ .hide → w.debounceTimer = some t.id
  timerField : ∀ id, w.debounceTimer = some id → id ≠ 0

/-- Facts about the rows that hold in every state reached with plain-text
datasets: the stored results are plain text, the rendered rows are none or
the rows of `lastResults` up to the class `selected`, and `selectedIndex` is
at least -1. -/
structure RowsInv (w : Widget) : Prop where
  plain : plainResults w.lastResults = true
  rows : w.content.rows = [] ∨ w.content.rows.map unselect = renderRows w.lastResults
  selLower : -1 ≤ w.selectedIndex

/-! ## String lemmas -/

theorem startsWithChars_iff (s t : List Char) :
    startsWithChars s t = true ↔ ∃ after, s = t ++ after := by
  induction t generalizing s with
  | nil => simp [startsWithChars]
  | cons d ds ih =>
    cases s with
    | nil => simp [startsWithChars]
    | cons c cs =>
      simp only [startsWithChars, Bool.and_eq_true, beq_iff_eq, ih, List.cons_append,
        List.cons.injEq]
      constructor
      · rintro ⟨rfl, a, rfl⟩
        exact ⟨a, rfl, rfl⟩
      · rintro ⟨a, rfl, rfl⟩
        exact ⟨rfl, a, rfl⟩

theorem includesChars_iff (s t : List Char) :
    includesChars s t = true ↔ ∃ before after, s = before ++ t ++ after := by
  induction s with
  | nil =>
    simp only [includesChars, startsWithChars_iff]
    constructor
    · rintro ⟨a, h⟩
      exact ⟨[], a, by simpa using h⟩
    · rintro ⟨b, a, h⟩
      have h1 : b = [] ∧ t = [] ∧ a = [] := by simpa [List.append_eq_nil, and_assoc] using h.symm
      exact ⟨[], by simp [h1.2.1]⟩
  | cons c cs ih =>
    simp only [includesChars, Bool.or_eq_true, startsWithChars_iff, ih]
    constructor
    · rintro (⟨a, h⟩ | ⟨b, a, h⟩)
      · exact ⟨[], a, by simpa using h⟩
      · exact ⟨c :: b, a, by simp [h]⟩
    · rintro ⟨b, a, h⟩
      cases b with
      | nil => exact Or.inl ⟨a, by simpa using h⟩
      | cons x b =>
        simp only [List.cons_append, List.cons.injEq] at h
        exact Or.inr ⟨b, a, h.2⟩

theorem includes_iff (s t : String) : includes s t = true ↔ IsSubstring t s := by
  simp [includes, IsSubstring, includesChars_iff]

theorem matchesQuery_iff (toLowerCase : String → String) (query : String) (e : SearchResult) :
    matchesQuery toLowerCase query e = true ↔
      IsSubstring (toLowerCase query) (toLowerCase e.phrase) ∨
      IsSubstring (toLowerCase query) (toLowerCase e.subtext) := by
  simp [matchesQuery, includes_iff]

/-! ## Rendered rows -/

theorem renderFrom_unselect (i : Nat) (l : List SearchResult) :
    (renderFrom i l).map unselect = renderFrom i l := by
  induction l generalizing i with
  | nil => rfl
  | cons r rs ih => simp [renderFrom, unselect, ih]

theorem renderFrom_length (i : Nat) (l : List SearchResult) :
    (renderFrom i l).length = l.length := by
  induction l generalizing i with
  | nil => rfl
  | cons r rs ih => simp [renderFrom, ih]

theorem renderFrom_getElem? (i k : Nat) (l : List SearchResult) :
    (renderFrom i l)[k]? = l[k]?.map (fun r =>
      { index := ((i + k : Nat) : Int), url := r.url, phrase := r.phrase,
        subtext := r.subtext, selected := false }) := by
  induction l generalizing i k with
  | nil => simp [renderFrom]
  | cons r rs ih =>
    cases k with
    | zero => simp [renderFrom]
    | succ k => simp [renderFrom, ih, Nat.add_assoc, Nat.add_comm 1 k]

theorem renderedRows_plain (hostRows : List SearchResult → List ResultRow)
    (results : List SearchResult) (h : plainResults results = true) :
    renderedRows hostRows results = renderRows results := by
  simp [renderedRows, h]

theorem set_unselect (rows : List ResultRow) (k : Nat) (row : ResultRow)
    (h : rows[k]? = some row) :
    (rows.set k { row with selected := true }).map unselect = rows.map unselect := by
  induction rows generalizing k with
  | nil => simp
  | cons r rs ih =>
    cases k with
    | zero =>
      simp only [List.getElem?_cons_zero, Option.some.injEq] at h
      subst h
      simp [unselect]
    | succ k =>
      simp only [List.getElem?_cons_succ] at h
      simp [ih k h]

theorem rowAt_eq_some {rows : List ResultRow} {i : Int} {row : ResultRow}
    (h : rowAt rows i = some row) : 0 ≤ i ∧ rows[i.toNat]? = some row := by
  unfold rowAt at h
  split at h
  · cases h
  · exact ⟨by omega, h⟩

theorem rows_mapRows (f : ResultRow → ResultRow) (c : Content) :
    (c.mapRows f).rows = c.rows.map f := by
  cases c <;> rfl

theorem rows_setRow (i : Nat) (r : ResultRow) (c : Content) :
    (c.setRow i r).rows = c.rows.set i r := by
  cases c <;> rfl

theorem rows_updateSelection (w : Widget) :
    (updateSelection w).content.rows.map unselect = w.content.rows.map unselect ∧
    (updateSelection w).content.rows.length = w.content.rows.length := by
  have hu : ∀ r, unselect (unselect r) = unselect r := fun r => rfl
  unfold updateSelection
  simp only [clearSelection]
  split
  · split
    · rename_i row hrow
      have h := (rowAt_eq_some hrow).2
      simp only [rows_mapRows] at h
      simp only [rows_setRow, rows_mapRows, set_unselect _ _ _ h, List.length_set,
        List.length_map, List.map_map, and_true]
      congr 1
    · simp only [rows_mapRows, List.map_map, List.length_map, and_true]
      congr 1
  · simp only [rows_mapRows, List.map_map, List.length_map, and_true]
    congr 1

theorem rows_rowMouseenter (w : Widget) (k : Nat) :
    (rowMouseenter w k).content.rows.map unselect = w.content.rows.map unselect ∧
    (rowMouseenter w k).content.rows.length = w.content.rows.length := by
  unfold rowMouseenter
  split
  · rename_i row hrow
    have h : (w.content.rows.map unselect)[k]? = some (unselect row) := by simp [hrow]
    have h2 := set_unselect _ _ _ h
    simp only [unselect] at h2 ⊢
    simp only [clearSelection, rows_setRow, rows_mapRows, List.length_set, List.length_map,
      and_true]
    simpa [unselect, List.map_map] using h2
  · exact ⟨rfl, rfl⟩

/-! ## Frame of each listener -/

theorem displayResults_rows (hostRows : List SearchResult → List ResultRow) (w : Widget)
    (results : List SearchResult) (q : String) (hplain : plainResults results = true) :
    (displayResults hostRows w results q).content.rows = renderRows results := by
  unfold displayResults
  split
  · rename_i hlen
    have : results = [] := by simpa using hlen
    subst this
    rfl
  · rw [renderedRows_plain hostRows results hplain]
    rfl

theorem displayResults_frame (hostRows : List SearchResult → List ResultRow) (w : Widget)
    (results : List SearchResult) (q : String) :
    (displayResults hostRows w results q).timers = w.timers ∧
    (displayResults hostRows w results q).nextTimerId = w.nextTimerId ∧
    (displayResults hostRows w results q).debounceTimer = w.debounceTimer ∧
    (displayResults hostRows w results q).selectedIndex = w.selectedIndex ∧
    (displayResults hostRows w results q).lastQuery = w.lastQuery ∧
    (displayResults hostRows w results q).lastResults = w.lastResults ∧
    (displayResults hostRows w results q).inflight = w.inflight ∧
    (displayResults hostRows w results q).fetchCalls = w.fetchCalls ∧
    (displayResults hostRows w results q).opened = w.opened ∧
    (displayResults hostRows w results q).inputValue = w.inputValue ∧
    (displayResults hostRows w results q).shown = true := by
  unfold displayResults
  split <;> simp [showNoResults, showDropdown]

theorem cancel_frame (w : Widget) :
    let w1 := if timerTruthy w.debounceTimer then
        match w.debounceTimer with
        | some id => clearTimeout w id
        | none => w
      else w
    w1.content = w.content ∧ w1.shown = w.shown ∧ w1.selectedIndex = w.selectedIndex ∧
      w1.inflight = w.inflight ∧ w1.fetchCalls = w.fetchCalls ∧ w1.opened = w.opened ∧
      w1.inputValue = w.inputValue ∧ w1.debounceTimer = w.debounceTimer ∧
      w1.nextTimerId = w.nextTimerId ∧ w1.timers.Sublist w.timers ∧
      (∀ id, w.debounceTimer = some id → id ≠ 0 → ∀ t ∈ w1.timers, t.id ≠ id) ∧
      w1.lastQuery = w.lastQuery ∧ w1.lastResults = w.lastResults := by
  cases hd : w.debounceTimer with
  | none => simp [timerTruthy, hd]
  | some id =>
    by_cases hz : id = 0
    · subst hz
      simp [timerTruthy, hd]
    · simp [timerTruthy, hz, clearTimeout, hd]

/-- The two live branches of `handleInput`, over the state left by its
`clearTimeout` guard. -/
theorem handleInput_eq (w : Widget) (value : String) :
    ∃ w1 : Widget,
      (w1 = if timerTruthy w.debounceTimer then
        match w.debounceTimer with
        | some id => clearTimeout w id
        | none => w
      else w) ∧
      handleInput w value =
        if (trim value).length = 0 then
          showQueryMessage { w1 with lastQuery := "", lastResults := [] }
        else
          { w1 with timers := w1.timers ++ [⟨w1.nextTimerId, .search (trim value)⟩],
                    nextTimerId := w1.nextTimerId + 1,
                    debounceTimer := some w1.nextTimerId } := by
  refine ⟨_, rfl, ?_⟩
  unfold handleInput
  by_cases h0 : (trim value).length = 0
  · simp [h0]
  · have h1 : ¬ (trim value).length < 1 := by omega
    simp [h0, h1, setTimeout]

theorem handleFocus_frame (hostRows : List SearchResult → List ResultRow) (w : Widget) :
    (handleFocus hostRows w).timers = w.timers ∧
    (handleFocus hostRows w).nextTimerId = w.nextTimerId ∧
    (handleFocus hostRows w).debounceTimer = w.debounceTimer ∧
    (handleFocus hostRows w).selectedIndex = w.selectedIndex ∧
    (handleFocus hostRows w).lastQuery = w.lastQuery ∧
    (handleFocus hostRows w).lastResults = w.lastResults := by
  unfold handleFocus
  simp only []
  split
  · exact ⟨rfl, rfl, rfl, rfl, rfl, rfl⟩
  · split
    · have hf := displayResults_frame hostRows w w.lastResults w.lastQuery
      exact ⟨hf.1, hf.2.1, hf.2.2.1, hf.2.2.2.1, hf.2.2.2.2.1, hf.2.2.2.2.2.1⟩
    · split <;> exact ⟨rfl, rfl, rfl, rfl, rfl, rfl⟩

theorem updateSelection_frame (w : Widget) :
    (updateSelection w).selectedIndex = w.selectedIndex ∧
    (updateSelection w).lastQuery = w.lastQuery ∧
    (updateSelection w).lastResults = w.lastResults ∧
    (updateSelection w).timers = w.timers ∧
    (updateSelection w).debounceTimer = w.debounceTimer ∧
    (updateSelection w).shown = w.shown ∧
    (updateSelection w).fetchCalls = w.fetchCalls ∧
    (updateSelection w).inflight = w.inflight ∧
    (updateSelection w).opened = w.opened ∧
    rowCount (updateSelection w) = rowCount w := by
  refine ⟨?_, ?_, ?_, ?_, ?_, ?_, ?_, ?_, ?_, (rows_updateSelection w).2⟩ <;>
  · unfold updateSelection
    simp only [clearSelection]
    split
    · split <;> rfl
    · rfl

theorem updateSelection_nextTimerId (w : Widget) :
    (updateSelection w).nextTimerId = w.nextTimerId := by
  unfold updateSelection
  simp only [clearSelection]
  split
  · split <;> rfl
  · rfl

theorem rowMouseenter_frame (w : Widget) (k : Nat) :
    (rowMouseenter w k).timers = w.timers ∧
    (rowMouseenter w k).nextTimerId = w.nextTimerId ∧
    (rowMouseenter w k).debounceTimer = w.debounceTimer ∧
    (rowMouseenter w k).lastQuery = w.lastQuery ∧
    (rowMouseenter w k).lastResults = w.lastResults ∧
    (rowMouseenter w k).inflight = w.inflight ∧
    (rowMouseenter w k).fetchCalls = w.fetchCalls ∧
    (rowMouseenter w k).opened = w.opened ∧
    (rowMouseenter w k).shown = w.shown ∧
    ((rowMouseenter w k).selectedIndex = w.selectedIndex ∨
      ∃ row, w.content.rows[k]? = some row ∧ (rowMouseenter w k).selectedIndex = row.index) := by
  unfold rowMouseenter
  split
  · rename_i row hrow
    simp only [clearSelection, true_and]
    exact Or.inr ⟨row, hrow, rfl⟩
  · simp

theorem fetchSettled_frame (toLowerCase : String → String)
    (hostRows : List SearchResult → List ResultRow) (w : Widget) (k : Nat)
    (outcome : FetchOutcome) :
    (fetchSettled toLowerCase hostRows w k outcome).timers = w.timers ∧
    (fetchSettled toLowerCase hostRows w k outcome).nextTimerId = w.nextTimerId ∧
    (fetchSettled toLowerCase hostRows w k outcome).debounceTimer = w.debounceTimer ∧
    (fetchSettled toLowerCase hostRows w k outcome).selectedIndex = w.selectedIndex := by
  unfold fetchSettled
  split
  · exact ⟨rfl, rfl, rfl, rfl⟩
  · simp only [performSearchResume]
    split
    · rename_i w2 heq
      split at heq
      · cases heq
        exact ⟨(displayResults_frame hostRows _ _ _).1, (displayResults_frame hostRows _ _ _).2.1,
          (displayResults_frame hostRows _ _ _).2.2.1,
          (displayResults_frame hostRows _ _ _).2.2.2.1⟩
      · cases heq
        exact ⟨rfl, rfl, rfl, rfl⟩
    · exact ⟨rfl, rfl, rfl, rfl⟩

/-! ## Timer invariant of the reachable states -/

theorem Inv.frame {w w' : Widget} (h : Inv w) (ht : w'.timers = w.timers)
    (hn : w'.nextTimerId = w.nextTimerId) (hd : w'.debounceTimer = w.debounceTimer) :
    Inv w' where
  timerPos := hn ▸ h.timerPos
  timerFresh := by rw [ht, hn]; exact h.timerFresh
  timerDebounce := by rw [ht, hd]; exact h.timerDebounce
  timerField := by rw [hd]; exact h.timerField

theorem inv_construct : Inv construct where
  timerPos := by decide
  timerFresh := by simp [construct]
  timerDebounce := by simp [construct]
  timerField := by simp [construct]

theorem inv_setTimeout_hide {w : Widget} (h : Inv w) : Inv (setTimeout w .hide).1 where
  timerPos := by simp [setTimeout]
  timerFresh := by
    intro t ht
    simp only [setTimeout, List.mem_append, List.mem_singleton] at ht ⊢
    rcases ht with ht | rfl
    · exact Nat.lt_succ_of_lt (h.timerFresh t ht)
    · exact Nat.lt_succ_self _
  timerDebounce := by
    intro t ht hne
    simp only [setTimeout, List.mem_append, List.mem_singleton] at ht ⊢
    rcases ht with ht | rfl
    · exact h.timerDebounce t ht hne
    · exact absurd rfl hne
  timerField := h.timerField

theorem inv_clearTimeout {w : Widget} (h : Inv w) (id : Nat) : Inv (clearTimeout w id) where
  timerPos := h.timerPos
  timerFresh := fun t ht => h.timerFresh t (List.mem_of_mem_filter ht)
  timerDebounce := fun t ht hne => h.timerDebounce t (List.mem_of_mem_filter ht) hne
  timerField := h.timerField

/-- State of `handleInput` after its `clearTimeout` guard. -/
theorem cancel_searchTimers {w : Widget} (h : Inv w) :
    let w1 := if timerTruthy w.debounceTimer then
        match w.debounceTimer with
        | some id => clearTimeout w id
        | none => w
      else w
    Inv w1 ∧ searchTimers w1 = [] ∧ w1.nextTimerId = w.nextTimerId := by
  cases hd : w.debounceTimer with
  | none =>
    simp only [timerTruthy, Bool.false_eq_true, if_false]
    refine ⟨h, ?_, trivial⟩
    simp only [searchTimers, List.filter_eq_nil_iff]
    intro t ht hne
    have := h.timerDebounce t ht (by simpa using hne)
    simp [hd] at this
  | some id =>
    have hz := h.timerField id hd
    simp only [timerTruthy, bne_iff_ne, ne_eq, hz, not_false_eq_true, decide_True, if_true]
    refine ⟨inv_clearTimeout h id, ?_, rfl⟩
    simp only [searchTimers, clearTimeout, List.filter_filter, List.filter_eq_nil_iff]
    intro t ht hne
    simp only [Bool.and_eq_true, bne_iff_ne, ne_eq] at hne
    have := h.timerDebounce t ht hne.1
    rw [hd] at this
    exact hne.2 (Option.some.inj this).symm

theorem inv_handleInput {w : Widget} (h : Inv w) (value : String) :
    Inv (handleInput w value) := by
  obtain ⟨w1, hw1, heq⟩ := handleInput_eq w value
  have hc := cancel_searchTimers h
  simp only [← hw1] at hc
  obtain ⟨hi, hs, -⟩ := hc
  rw [heq]
  split
  · exact hi.frame rfl rfl rfl
  · refine ⟨by simp, ?_, ?_, ?_⟩
    · intro t ht
      simp only [List.mem_append, List.mem_singleton] at ht ⊢
      rcases ht with ht | rfl
      · exact Nat.lt_succ_of_lt (hi.timerFresh t ht)
      · exact Nat.lt_succ_self _
    · intro t ht hne
      simp only [List.mem_append, List.mem_singleton] at ht ⊢
      rcases ht with ht | rfl
      · have : t ∈ searchTimers w1 := by
          simp only [searchTimers, List.mem_filter]
          exact ⟨ht, by simpa using hne⟩
        rw [hs] at this
        cases this
      · rfl
    · intro id hid
      simp only [Option.some.injEq] at hid
      have := hi.timerPos
      omega

theorem inv_hideDropdown {w : Widget} (h : Inv w) : Inv (hideDropdown w) :=
  h.frame rfl rfl rfl

theorem inv_performSearch {w : Widget} (h : Inv w) (q : String) : Inv (performSearch w q) :=
  h.frame rfl rfl rfl

theorem inv_handleKeydown {w : Widget} (h : Inv w) (key : Key) :
    Inv (handleKeydown w key) := by
  cases key with
  | arrowDown =>
    have hf := updateSelection_frame
      { w with selectedIndex := min (w.selectedIndex + 1) ((w.content.rows.length : Int) - 1) }
    exact h.frame hf.2.2.2.1 (updateSelection_nextTimerId _) hf.2.2.2.2.1
  | arrowUp =>
    have hf := updateSelection_frame { w with selectedIndex := max (w.selectedIndex - 1) (-1) }
    exact h.frame hf.2.2.2.1 (updateSelection_nextTimerId _) hf.2.2.2.2.1
  | enter =>
    unfold handleKeydown
    simp only []
    split
    · split
      · exact h.frame rfl rfl rfl
      · exact h
    · exact h
  | escape => exact inv_setTimeout_hide (inv_hideDropdown h)
  | other => exact h

theorem inv_timerExpiry {w : Widget} (h : Inv w) (id : Nat) : Inv (timerExpiry w id) := by
  unfold timerExpiry
  split
  · exact h
  · simp only []
    split
    · exact inv_performSearch (inv_clearTimeout h id) _
    · exact inv_hideDropdown (inv_clearTimeout h id)

theorem inv_step (toLowerCase : String → String)
    (hostRows : List SearchResult → List ResultRow) {w : Widget} (h : Inv w) (e : Event) :
    Inv (step toLowerCase hostRows w e) := by
  cases e with
  | input value =>
    exact inv_handleInput (w := { w with inputValue := value }) (h.frame rfl rfl rfl) value
  | focus =>
    have hf := handleFocus_frame hostRows w
    exact h.frame hf.1 hf.2.1 hf.2.2.1
  | blur => exact inv_setTimeout_hide h
  | keydown key => exact inv_handleKeydown h key
  | click inside =>
    cases inside
    · exact inv_hideDropdown h
    · exact h
  | rowClick k =>
    show Inv (rowClick w k)
    unfold rowClick
    split
    · exact h.frame rfl rfl rfl
    · exact h
  | rowHover k =>
    have hf := rowMouseenter_frame w k
    exact h.frame hf.1 hf.2.1 hf.2.2.1
  | timerExpiry id => exact inv_timerExpiry h id
  | fetchSettled k outcome =>
    have hf := fetchSettled_frame toLowerCase hostRows w k outcome
    exact h.frame hf.1 hf.2.1 hf.2.2.1

theorem inv_of_reachable {toLowerCase : String → String}
    {hostRows : List SearchResult → List ResultRow} {w : Widget}
    (h : Reachable toLowerCase hostRows w) : Inv w := by
  induction h with
  | construct => exact inv_construct
  | step e _ ih => exact inv_step toLowerCase hostRows ih e

theorem reachable_run {toLowerCase : String → String}
    {hostRows : List SearchResult → List ResultRow} {w : Widget}
    (h : Reachable toLowerCase hostRows w) (events : List Event) :
    Reachable toLowerCase hostRows (run toLowerCase hostRows w events) := by
  induction events generalizing w with
  | nil => exact h
  | cons e es ih => exact ih (Reachable.step e h)

theorem reachable_of_plain {toLowerCase : String → String}
    {hostRows : List SearchResult → List ResultRow} {w : Widget}
    (h : ReachablePlain toLowerCase hostRows w) : Reachable toLowerCase hostRows w := by
  induction h with
  | construct => exact Reachable.construct
  | step e _ _ ih => exact Reachable.step e ih

theorem reachablePlain_run {toLowerCase : String → String}
    {hostRows : List SearchResult → List ResultRow} {w : Widget}
    (h : ReachablePlain toLowerCase hostRows w) (events : List Event)
    (hplain : ∀ e ∈ events, PlainEvent e) :
    ReachablePlain toLowerCase hostRows (run toLowerCase hostRows w events) := by
  induction events generalizing w with
  | nil => exact h
  | cons e es ih =>
    exact ih (ReachablePlain.step e h (hplain e (by simp)))
      (fun e' he' => hplain e' (by simp [he']))

/-! ## Row invariant of the states reached with plain-text datasets -/

theorem fetchSearchResults_error_iff (toLowerCase : String → String) (query : String)
    (outcome : FetchOutcome) :
    (∃ e, fetchSearchResults toLowerCase query outcome = .error e) ↔ FetchFails outcome := by
  unfold fetchSearchResults fetchSearchResultsTry FetchFails
  cases outcome with
  | networkError => simp
  | response status body =>
    cases hs : responseOk status
    · simp [hs]
    · cases body with
      | malformed => simp [hs]
      | object success best_matches =>
        cases success <;> cases best_matches <;> simp [hs]

theorem filter_plain (p : SearchResult → Bool) (entries : List SearchResult)
    (h : plainResults entries = true) : plainResults (entries.filter p) = true := by
  simp only [plainResults, List.all_eq_true] at h ⊢
  intro r hr
  exact h r (List.mem_of_mem_filter hr)

theorem fetchSearchResults_plain (toLowerCase : String → String) (query : String) (k : Nat)
    (outcome : FetchOutcome) (results : List SearchResult)
    (hplain : PlainEvent (.fetchSettled k outcome))
    (hok : fetchSearchResults toLowerCase query outcome = .ok results) :
    plainResults results = true := by
  unfold fetchSearchResults fetchSearchResultsTry at hok
  cases outcome with
  | networkError => simp at hok
  | response status body =>
    cases body with
    | malformed =>
      cases hs : responseOk status <;> simp [hs] at hok
    | object success best_matches =>
      cases best_matches with
      | none => cases hs : responseOk status <;> cases success <;> simp [hs] at hok
      | some entries =>
        cases hs : responseOk status <;> cases success <;> simp [hs] at hok
        subst hok
        exact filter_plain _ _ hplain

theorem rowsInv_construct : RowsInv construct :=
  ⟨by decide, Or.inl rfl, by decide⟩

/-- In a state satisfying the row invariant a rendered row carries its own
position and the URL of the stored result at that position. -/
theorem row_of_inv {w : Widget} (h : RowsInv w) (k : Nat) (row : ResultRow)
    (hrow : w.content.rows[k]? = some row) :
    row.index = (k : Int) ∧ k < rowCount w ∧
    ∃ r, w.lastResults[k]? = some r ∧ row.url = r.url := by
  have hlt : k < w.content.rows.length := by
    rcases Nat.lt_or_ge k w.content.rows.length with hlt | hge
    · exact hlt
    · rw [List.getElem?_eq_none hge] at hrow
      cases hrow
  rcases h.rows with h0 | h1
  · rw [h0] at hrow
    simp at hrow
  · have h2 : (w.content.rows.map unselect)[k]? = some (unselect row) := by simp [hrow]
    rw [h1, renderRows, renderFrom_getElem?] at h2
    cases hl : w.lastResults[k]? with
    | none => simp [hl] at h2
    | some r =>
      simp only [hl, Option.map_some', Option.some.injEq] at h2
      have hi : (unselect row).index = (k : Int) := by rw [← h2]; simp
      have hu : (unselect row).url = r.url := by rw [← h2]
      exact ⟨hi, hlt, r, rfl, hu⟩

theorem rows_transfer {w w' : Widget} (h : RowsInv w)
    (hl : w'.lastResults = w.lastResults)
    (hm : w'.content.rows.map unselect = w.content.rows.map unselect)
    (hlen : w'.content.rows.length = w.content.rows.length) :
    w'.content.rows = [] ∨ w'.content.rows.map unselect = renderRows w'.lastResults := by
  rcases h.rows with h0 | h1
  · left
    exact List.length_eq_zero.mp (by rw [hlen, h0]; rfl)
  · right
    rw [hm, hl]
    exact h1

theorem rowsInv_displayResults (hostRows : List SearchResult → List ResultRow) (w : Widget)
    (q : String) (hplain : plainResults w.lastResults = true) (hsel : -1 ≤ w.selectedIndex) :
    RowsInv (displayResults hostRows w w.lastResults q) := by
  have hf := displayResults_frame hostRows w w.lastResults q
  refine ⟨by rw [hf.2.2.2.2.2.1]; exact hplain, Or.inr ?_, by rw [hf.2.2.2.1]; exact hsel⟩
  rw [displayResults_rows hostRows w w.lastResults q hplain, hf.2.2.2.2.2.1]
  exact renderFrom_unselect 0 _

theorem rowsInv_handleKeydown {w : Widget} (h : RowsInv w) (key : Key) :
    RowsInv (handleKeydown w key) := by
  have hl := h.selLower
  cases key with
  | arrowDown =>
    have hf := updateSelection_frame
      { w with selectedIndex := min (w.selectedIndex + 1) ((w.content.rows.length : Int) - 1) }
    have hr := rows_updateSelection
      { w with selectedIndex := min (w.selectedIndex + 1) ((w.content.rows.length : Int) - 1) }
    refine ⟨?_, rows_transfer h hf.2.2.1 hr.1 hr.2, ?_⟩
    · show plainResults (updateSelection _).lastResults = true
      rw [hf.2.2.1]
      exact h.plain
    · show -1 ≤ (updateSelection _).selectedIndex
      rw [hf.1]
      show -1 ≤ min (w.selectedIndex + 1) ((w.content.rows.length : Int) - 1)
      omega
  | arrowUp =>
    have hf := updateSelection_frame { w with selectedIndex := max (w.selectedIndex - 1) (-1) }
    have hr := rows_updateSelection { w with selectedIndex := max (w.selectedIndex - 1) (-1) }
    refine ⟨?_, rows_transfer h hf.2.2.1 hr.1 hr.2, ?_⟩
    · show plainResults (updateSelection _).lastResults = true
      rw [hf.2.2.1]
      exact h.plain
    · show -1 ≤ (updateSelection _).selectedIndex
      rw [hf.1]
      show -1 ≤ max (w.selectedIndex - 1) (-1)
      omega
  | enter =>
    unfold handleKeydown
    simp only []
    split
    · split
      · exact ⟨h.plain, h.rows, le_refl _⟩
      · exact h
    · exact h
  | escape => exact ⟨h.plain, h.rows, le_refl _⟩
  | other => exact h

theorem rowsInv_step (toLowerCase : String → String)
    (hostRows : List SearchResult → List ResultRow) {w : Widget} (h : RowsInv w) (e : Event)
    (he : PlainEvent e) : RowsInv (step toLowerCase hostRows w e) := by
  cases e with
  | input value =>
    obtain ⟨w1, hw1, heq⟩ := handleInput_eq { w with inputValue := value } value
    have hf := cancel_frame { w with inputValue := value }
    simp only [← hw1] at hf
    show RowsInv (handleInput { w with inputValue := value } value)
    rw [heq]
    split
    · exact ⟨rfl, Or.inl rfl, by
        show -1 ≤ w1.selectedIndex
        rw [hf.2.2.1]
        exact h.selLower⟩
    · refine ⟨?_, ?_, ?_⟩
      · show plainResults w1.lastResults = true
        rw [hf.2.2.2.2.2.2.2.2.2.2.2.2]
        exact h.plain
      · show w1.content.rows = [] ∨ w1.content.rows.map unselect = renderRows w1.lastResults
        rw [hf.2.2.2.2.2.2.2.2.2.2.2.2, hf.1]
        exact h.rows
      · show -1 ≤ w1.selectedIndex
        rw [hf.2.2.1]
        exact h.selLower
  | focus =>
    show RowsInv (handleFocus hostRows w)
    unfold handleFocus
    simp only []
    split
    · exact ⟨h.plain, Or.inl rfl, h.selLower⟩
    · split
      · exact rowsInv_displayResults hostRows w _ h.plain h.selLower
      · split
        · exact ⟨h.plain, Or.inl rfl, h.selLower⟩
        · exact ⟨h.plain, Or.inl rfl, h.selLower⟩
  | blur => exact ⟨h.plain, h.rows, h.selLower⟩
  | keydown key => exact rowsInv_handleKeydown h key
  | click inside =>
    cases inside
    · exact ⟨h.plain, h.rows, le_refl _⟩
    · exact h
  | rowClick k =>
    show RowsInv (rowClick w k)
    unfold rowClick
    split
    · exact ⟨h.plain, h.rows, le_refl _⟩
    · exact h
  | rowHover k =>
    have hf := rowMouseenter_frame w k
    have hr := rows_rowMouseenter w k
    refine ⟨?_, rows_transfer h hf.2.2.2.2.1 hr.1 hr.2, ?_⟩
    · show plainResults (rowMouseenter w k).lastResults = true
      rw [hf.2.2.2.2.1]
      exact h.plain
    · show -1 ≤ (rowMouseenter w k).selectedIndex
      rcases hf.2.2.2.2.2.2.2.2.2 with hs | ⟨row, hrow, hs⟩
      · rw [hs]
        exact h.selLower
      · rw [hs, (row_of_inv h k row hrow).1]
        omega
  | timerExpiry id =>
    show RowsInv (timerExpiry w id)
    unfold timerExpiry
    split
    · exact h
    · simp only []
      split
      · exact ⟨h.plain, Or.inl rfl, h.selLower⟩
      · exact ⟨h.plain, h.rows, le_refl _⟩
  | fetchSettled k outcome =>
    show RowsInv (fetchSettled toLowerCase hostRows w k outcome)
    unfold fetchSettled
    split
    · exact h
    · rename_i query hq
      simp only [performSearchResume]
      cases hres : fetchSearchResults toLowerCase query outcome with
      | ok results =>
        have hp := fetchSearchResults_plain toLowerCase query k outcome results he hres
        exact rowsInv_displayResults hostRows
          { w with inflight := w.inflight.eraseIdx k, lastQuery := query,
                   lastResults := results } query hp h.selLower
      | error err => exact ⟨rfl, Or.inl rfl, h.selLower⟩

theorem rowsInv_of_reachable {toLowerCase : String → String}
    {hostRows : List SearchResult → List ResultRow} {w : Widget}
    (h : ReachablePlain toLowerCase hostRows w) : RowsInv w := by
  induction h with
  | construct => exact rowsInv_construct
  | step e _ he ih => exact rowsInv_step toLowerCase hostRows ih e he

/-! ## Lemmas for the claims -/

theorem length_eq_zero_iff (s : String) : s.length = 0 ↔ s = "" := by
  cases s with
  | mk data =>
    constructor
    · intro h
      have : data = [] := List.length_eq_zero.mp h
      rw [this]
    · intro h
      rw [h]
      rfl

/-- An input event with non-empty trimmed text leaves exactly its own search
timeout pending, after the surviving `hide` timeouts. -/
theorem step_input_nonempty (toLowerCase : String → String)
    (hostRows : List SearchResult → List ResultRow) {w : Widget} (h : Inv w)
    (value : String) (hv : trim value ≠ "") :
    Inv (step toLowerCase hostRows w (.input value)) ∧
    (step toLowerCase hostRows w (.input value)).fetchCalls = w.fetchCalls ∧
    (step toLowerCase hostRows w (.input value)).inflight = w.inflight ∧
    ∃ rest id, (step toLowerCase hostRows w (.input value)).timers =
        rest ++ [⟨id, .search (trim value)⟩] ∧
      ∀ t ∈ rest, t.action = .hide ∧ t.id < id := by
  have hi : Inv { w with inputValue := value } := h.frame rfl rfl rfl
  refine ⟨inv_step toLowerCase hostRows h _, ?_⟩
  obtain ⟨w1, hw1, heq⟩ := handleInput_eq { w with inputValue := value } value
  have hf := cancel_frame { w with inputValue := value }
  have hc := cancel_searchTimers hi
  simp only [← hw1] at hf hc
  have hlen : ¬ (trim value).length = 0 := fun h0 => hv ((length_eq_zero_iff _).mp h0)
  have hstep : step toLowerCase hostRows w (.input value) =
      { w1 with timers := w1.timers ++ [⟨w1.nextTimerId, .search (trim value)⟩],
                nextTimerId := w1.nextTimerId + 1,
                debounceTimer := some w1.nextTimerId } := by
    show handleInput { w with inputValue := value } value = _
    rw [heq, if_neg hlen]
  rw [hstep]
  refine ⟨hf.2.2.2.2.1, hf.2.2.2.1, w1.timers, w1.nextTimerId, rfl, ?_⟩
  intro t ht
  refine ⟨?_, hc.1.timerFresh t ht⟩
  by_contra hne
  have : t ∈ searchTimers w1 := by
    simp only [searchTimers, List.mem_filter]
    exact ⟨ht, by simpa using hne⟩
  rw [hc.2.1] at this
  cases this

/-- Expiry of timeouts in a state whose only search timeout is the newest timeout. -/
theorem timerExpiry_single (w : Widget) (rest : List Timer) (id : Nat) (query : String)
    (ht : w.timers = rest ++ [⟨id, .search query⟩])
    (hrest : ∀ t ∈ rest, t.action = .hide ∧ t.id < id) :
    searchTimers w = [⟨id, .search query⟩] ∧
    timerExpiry w id = performSearch (clearTimeout w id) query ∧
    searchTimers (timerExpiry w id) = [] ∧
    ∀ id', id' ≠ id → (timerExpiry w id').fetchCalls = w.fetchCalls ∧
      (timerExpiry w id').inflight = w.inflight := by
  have hfilter : rest.filter (fun t => t.action != .hide) = [] := by
    simp only [List.filter_eq_nil_iff]
    intro t htm
    simp [(hrest t htm).1]
  have hfind : rest.find? (fun t => t.id == id) = none := by
    simp only [List.find?_eq_none]
    intro t htm
    have := (hrest t htm).2
    simp only [beq_iff_eq]
    omega
  have hexp : timerExpiry w id = performSearch (clearTimeout w id) query := by
    simp [timerExpiry, ht, List.find?_append, hfind]
  refine ⟨?_, hexp, ?_, ?_⟩
  · simp [searchTimers, ht, List.filter_append, hfilter]
  · rw [hexp]
    simp only [searchTimers, performSearch, showLoading, showDropdown, clearTimeout, ht,
      List.filter_filter, List.filter_eq_nil_iff]
    intro t htm
    simp only [List.mem_append, List.mem_singleton] at htm
    rcases htm with htm | rfl
    · simp [(hrest t htm).1]
    · simp
  · intro id' hid
    unfold timerExpiry
    split
    · exact ⟨rfl, rfl⟩
    · rename_i t hfound
      have hmem := List.mem_of_find?_eq_some hfound
      have hidt : t.id = id' := by simpa using List.find?_some hfound
      rw [ht] at hmem
      simp only [List.mem_append, List.mem_singleton] at hmem
      rcases hmem with hmem | rfl
      · simp only [(hrest t hmem).1]
        exact ⟨rfl, rfl⟩
      · exact absurd hidt.symm hid

theorem afterInputs_last (toLowerCase : String → String)
    (hostRows : List SearchResult → List ResultRow) (earlier : List String)
    (last : String) :
    ∀ {w : Widget}, Inv w → (∀ v ∈ earlier ++ [last], trim v ≠ "") →
    (afterInputs toLowerCase hostRows w (earlier ++ [last])).fetchCalls = w.fetchCalls ∧
    (afterInputs toLowerCase hostRows w (earlier ++ [last])).inflight = w.inflight ∧
    ∃ rest id, (afterInputs toLowerCase hostRows w (earlier ++ [last])).timers =
        rest ++ [⟨id, .search (trim last)⟩] ∧
      ∀ t ∈ rest, t.action = .hide ∧ t.id < id := by
  induction earlier with
  | nil =>
    intro w h hne
    exact (step_input_nonempty toLowerCase hostRows h last (hne last (by simp))).2
  | cons v vs ih =>
    intro w h hne
    have h1 := step_input_nonempty toLowerCase hostRows h v (hne v (by simp))
    have h2 := ih h1.1 (fun u hu => hne u (by
      simp only [List.cons_append, List.mem_cons]
      exact Or.inr hu))
    have hrun : afterInputs toLowerCase hostRows w (v :: vs ++ [last]) =
        afterInputs toLowerCase hostRows (step toLowerCase hostRows w (.input v)) (vs ++ [last]) := rfl
    rw [hrun, h2.1, h2.2.1, h1.2.1, h1.2.2.1]
    exact ⟨rfl, rfl, h2.2.2⟩

theorem focus_step_search (toLowerCase : String → String)
    (hostRows : List SearchResult → List ResultRow) (w : Widget)
    (htext : trim w.inputValue ≠ "") (hres : w.lastResults = []) :
    step toLowerCase hostRows w .focus = performSearch w (trim w.inputValue) := by
  have hl : ¬ (trim w.inputValue).length = 0 :=
    fun h => htext ((length_eq_zero_iff _).mp h)
  have : (trim w.inputValue).length ≥ 1 := by omega
  show handleFocus hostRows w = _
  simp [handleFocus, hl, hres, this]

/-- After `updateSelection` with the selection on the first row of a
non-empty list, that row has the class `selected`. -/
theorem updateSelection_first (w : Widget) (hsel : w.selectedIndex = 0)
    (hrows : 0 < rowCount w) :
    ∃ row, (updateSelection w).content.rows[0]? = some row ∧ row.selected = true := by
  cases hc : w.content with
  | results rows =>
    cases rows with
    | nil => simp [rowCount, hc, Content.rows] at hrows
    | cons r rs =>
      refine ⟨{ unselect r with selected := true }, ?_, rfl⟩
      simp [updateSelection, clearSelection, hc, hsel, Content.mapRows, Content.rows, rowAt,
        Content.setRow]
  | blank => simp [rowCount, hc, Content.rows] at hrows
  | queryMessage => simp [rowCount, hc, Content.rows] at hrows
  | loading => simp [rowCount, hc, Content.rows] at hrows
  | noResults => simp [rowCount, hc, Content.rows] at hrows

theorem step_selectedIndex (toLowerCase : String → String)
    (hostRows : List SearchResult → List ResultRow) (w : Widget) :
    (∀ value, (step toLowerCase hostRows w (.input value)).selectedIndex = w.selectedIndex) ∧
    (step toLowerCase hostRows w .focus).selectedIndex = w.selectedIndex ∧
    (step toLowerCase hostRows w .blur).selectedIndex = w.selectedIndex ∧
    (∀ k outcome,
      (step toLowerCase hostRows w (.fetchSettled k outcome)).selectedIndex = w.selectedIndex) ∧
    (∀ id t, w.timers.find? (fun t => t.id == id) = some t → t.action ≠ .hide →
      (step toLowerCase hostRows w (.timerExpiry id)).selectedIndex = w.selectedIndex) ∧
    (∀ id, (step toLowerCase hostRows w (.timerExpiry id)).selectedIndex = w.selectedIndex ∨
      (step toLowerCase hostRows w (.timerExpiry id)).selectedIndex = -1) := by
  refine ⟨?_, (handleFocus_frame hostRows w).2.2.2.1, rfl,
    fun k outcome => (fetchSettled_frame toLowerCase hostRows w k outcome).2.2.2, ?_, ?_⟩
  · intro value
    obtain ⟨w1, hw1, heq⟩ := handleInput_eq { w with inputValue := value } value
    have hf := cancel_frame { w with inputValue := value }
    simp only [← hw1] at hf
    show (handleInput { w with inputValue := value } value).selectedIndex = _
    rw [heq]
    split
    · exact hf.2.2.1
    · exact hf.2.2.1
  · intro id t hfind haction
    show (timerExpiry w id).selectedIndex = _
    unfold timerExpiry
    rw [hfind]
    simp only []
    split
    · rfl
    · rename_i hh
      exact absurd hh haction
  · intro id
    show (timerExpiry w id).selectedIndex = _ ∨ (timerExpiry w id).selectedIndex = -1
    unfold timerExpiry
    split
    · exact Or.inl rfl
    · simp only []
      split
      · exact Or.inl rfl
      · exact Or.inr rfl

theorem step_selection (toLowerCase : String → String)
    (hostRows : List SearchResult → List ResultRow) {w : Widget} (h : RowsInv w) (e : Event) :
    (step toLowerCase hostRows w e).selectedIndex ≤
        (rowCount (step toLowerCase hostRows w e) : Int) - 1 ∨
    (step toLowerCase hostRows w e).selectedIndex ≤ w.selectedIndex := by
  have hl := h.selLower
  have hs := step_selectedIndex toLowerCase hostRows w
  cases e with
  | input value => exact Or.inr (le_of_eq (hs.1 value))
  | focus => exact Or.inr (le_of_eq hs.2.1)
  | blur => exact Or.inr (le_refl _)
  | keydown key =>
    cases key with
    | arrowDown =>
      left
      have hf := updateSelection_frame
        { w with selectedIndex := min (w.selectedIndex + 1) ((rowCount w : Int) - 1) }
      have h1 : (step toLowerCase hostRows w (.keydown .arrowDown)).selectedIndex =
          min (w.selectedIndex + 1) ((rowCount w : Int) - 1) := hf.1
      have h2 : rowCount (step toLowerCase hostRows w (.keydown .arrowDown)) = rowCount w :=
        hf.2.2.2.2.2.2.2.2.2
      rw [h1, h2]
      omega
    | arrowUp =>
      right
      have hf := updateSelection_frame { w with selectedIndex := max (w.selectedIndex - 1) (-1) }
      have h1 : (step toLowerCase hostRows w (.keydown .arrowUp)).selectedIndex =
          max (w.selectedIndex - 1) (-1) := hf.1
      rw [h1]
      omega
    | enter =>
      right
      show (handleKeydown w .enter).selectedIndex ≤ _
      unfold handleKeydown
      simp only []
      split
      · split
        · exact hl
        · exact le_refl _
      · exact le_refl _
    | escape => exact Or.inr hl
    | other => exact Or.inr (le_refl _)
  | click inside =>
    cases inside
    · exact Or.inr hl
    · exact Or.inr (le_refl _)
  | rowClick k =>
    right
    show (rowClick w k).selectedIndex ≤ _
    unfold rowClick
    split
    · exact hl
    · exact le_refl _
  | rowHover k =>
    have hf := rowMouseenter_frame w k
    have hr := (rows_rowMouseenter w k).2
    rcases hf.2.2.2.2.2.2.2.2.2 with hs | ⟨row, hrow, hs⟩
    · right
      exact le_of_eq hs
    · left
      have hk := row_of_inv h k row hrow
      show (rowMouseenter w k).selectedIndex ≤ ((rowMouseenter w k).content.rows.length : Int) - 1
      rw [hs, hr, hk.1]
      have := hk.2.1
      unfold rowCount at this
      omega
  | timerExpiry id =>
    right
    rcases hs.2.2.2.2.2 id with h1 | h1
    · exact le_of_eq h1
    · rw [h1]
      exact hl
  | fetchSettled k outcome => exact Or.inr (le_of_eq (hs.2.2.2.1 k outcome))

/-! ## The claims -/

/-- C2: on a valid successful response, `fetchSearchResults` returns the
dataset filtered, in order and with entries unchanged, by a predicate that
holds exactly when the lower-cased query is a substring of the lower-cased
phrase or of the lower-cased subtext. -/
theorem fetchSearchResults_filters (toLowerCase : String → String) (query : String)
    (status : Nat) (dataset : List SearchResult) (hok : responseOk status = true) :
    ∃ keep : SearchResult → Bool,
      (∀ e, keep e = true ↔
        IsSubstring (toLowerCase query) (toLowerCase e.phrase) ∨
        IsSubstring (toLowerCase query) (toLowerCase e.subtext)) ∧
      fetchSearchResults toLowerCase query (successResponse status dataset) =
        .ok (dataset.filter keep) ∧
      (dataset.filter keep).Sublist dataset := by
  refine ⟨matchesQuery toLowerCase query, matchesQuery_iff toLowerCase query, ?_,
    List.filter_sublist _⟩
  simp [fetchSearchResults, fetchSearchResultsTry, successResponse, hok]

/-- C2 (witness): the Red Fox / Red Car dataset under "red", "fox" and "zzz",
and "cat" matching a phrase and a subtext. -/
theorem fetchSearchResults_filters_witness :
    responseOk 200 = true ∧
    (∃ keep : SearchResult → Bool,
      (∀ e, keep e = true ↔
        IsSubstring (asciiLowerCase "red") (asciiLowerCase e.phrase) ∨
        IsSubstring (asciiLowerCase "red") (asciiLowerCase e.subtext)) ∧
      fetchSearchResults asciiLowerCase "red" (successResponse 200 redDataset) =
        .ok (redDataset.filter keep) ∧
      (redDataset.filter keep).Sublist redDataset) ∧
    fetchSearchResults asciiLowerCase "red" (successResponse 200 redDataset) =
      .ok [⟨"Red Fox", "animal", "a.com"⟩, ⟨"Red Car", "vehicle", "b.com"⟩] ∧
    fetchSearchResults asciiLowerCase "fox" (successResponse 200 redDataset) =
      .ok [⟨"Red Fox", "animal", "a.com"⟩] ∧
    fetchSearchResults asciiLowerCase "zzz" (successResponse 200 redDataset) = .ok [] ∧
    fetchSearchResults asciiLowerCase "cat" (successResponse 200 catDataset) =
      .ok [⟨"Category List", "index", "c.com"⟩, ⟨"Dogs", "see catalog", "d.com"⟩] :=
  ⟨by decide, fetchSearchResults_filters asciiLowerCase "red" 200 redDataset (by decide),
    rfl, rfl, rfl, rfl⟩

/-- C3: after any number of input events with non-empty trimmed text and no
other event in between, from any reachable state, exactly one search timeout
is pending and it carries the trimmed text of the last input; no fetch has
been made; the expiry of that timeout makes exactly one fetch, for that text,
and leaves no search timeout pending; the expiry of any other timeout makes
no fetch. -/
theorem debounce_single_search (toLowerCase : String → String)
    (hostRows : List SearchResult → List ResultRow) (w : Widget)
    (earlier : List String) (last : String) (hw : Reachable toLowerCase hostRows w)
    (hne : ∀ v ∈ earlier ++ [last], trim v ≠ "") :
    ∃ id : Nat,
      searchTimers (afterInputs toLowerCase hostRows w (earlier ++ [last])) =
        [⟨id, .search (trim last)⟩] ∧
      (afterInputs toLowerCase hostRows w (earlier ++ [last])).fetchCalls = w.fetchCalls ∧
      (afterInputs toLowerCase hostRows w (earlier ++ [last])).inflight = w.inflight ∧
      (step toLowerCase hostRows (afterInputs toLowerCase hostRows w (earlier ++ [last]))
        (.timerExpiry id)).fetchCalls = w.fetchCalls + 1 ∧
      (step toLowerCase hostRows (afterInputs toLowerCase hostRows w (earlier ++ [last]))
        (.timerExpiry id)).inflight = w.inflight ++ [trim last] ∧
      searchTimers (step toLowerCase hostRows (afterInputs toLowerCase hostRows w (earlier ++ [last]))
        (.timerExpiry id)) = [] ∧
      ∀ id', id' ≠ id →
        (step toLowerCase hostRows (afterInputs toLowerCase hostRows w (earlier ++ [last]))
          (.timerExpiry id')).fetchCalls = w.fetchCalls ∧
        (step toLowerCase hostRows (afterInputs toLowerCase hostRows w (earlier ++ [last]))
          (.timerExpiry id')).inflight = w.inflight := by
  obtain ⟨hfetch, hinflight, rest, id, ht, hrest⟩ :=
    afterInputs_last toLowerCase hostRows earlier last (inv_of_reachable hw) hne
  obtain ⟨h1, h2, h3, h4⟩ := timerExpiry_single _ rest id (trim last) ht hrest
  refine ⟨id, h1, hfetch, hinflight, ?_, ?_, h3, ?_⟩
  · show (timerExpiry _ id).fetchCalls = _
    rw [h2, ← hfetch]
    rfl
  · show (timerExpiry _ id).inflight = _
    rw [h2, ← hinflight]
    rfl
  · intro id' hid
    have := h4 id' hid
    rw [hfetch, hinflight] at this
    exact this

/-- C3 (witness): three keystrokes "r", "re", "red " after construction. -/
theorem debounce_single_search_witness :
    (∀ v ∈ ["r", "re"] ++ ["red "], trim v ≠ "") ∧
    searchTimers (afterInputs asciiLowerCase quoteCuttingHost construct (["r", "re"] ++ ["red "])) =
      [⟨3, .search "red"⟩] ∧
    (step asciiLowerCase quoteCuttingHost (afterInputs asciiLowerCase quoteCuttingHost construct (["r", "re"] ++ ["red "]))
      (.timerExpiry 3)).fetchCalls = 1 ∧
    (step asciiLowerCase quoteCuttingHost (afterInputs asciiLowerCase quoteCuttingHost construct (["r", "re"] ++ ["red "]))
      (.timerExpiry 3)).inflight = ["red"] ∧
    ∃ id : Nat,
      searchTimers (afterInputs asciiLowerCase quoteCuttingHost construct (["r", "re"] ++ ["red "])) =
        [⟨id, .search (trim "red ")⟩] ∧
      (step asciiLowerCase quoteCuttingHost (afterInputs asciiLowerCase quoteCuttingHost construct (["r", "re"] ++ ["red "]))
        (.timerExpiry id)).fetchCalls = construct.fetchCalls + 1 :=
  have hne : ∀ v ∈ ["r", "re"] ++ ["red "], trim v ≠ "" := by decide
  have h := debounce_single_search asciiLowerCase quoteCuttingHost construct ["r", "re"] "red "
    Reachable.construct hne
  ⟨hne, by decide, by decide, by decide,
    h.elim fun id hid => ⟨id, hid.1, hid.2.2.2.1⟩⟩

/-- C4: an input event whose trimmed value is empty cancels the pending
debounce timeout, schedules none and fetches nothing, sets the stored query
to "" and the stored results to the empty list, shows the prompt message and
leaves the dropdown visible. -/
theorem handleInput_empty (toLowerCase : String → String)
    (hostRows : List SearchResult → List ResultRow) (w : Widget) (value : String)
    (hempty : trim value = "") :
    (step toLowerCase hostRows w (.input value)).lastQuery = "" ∧
    (step toLowerCase hostRows w (.input value)).lastResults = [] ∧
    (step toLowerCase hostRows w (.input value)).content = .queryMessage ∧
    (step toLowerCase hostRows w (.input value)).shown = true ∧
    (step toLowerCase hostRows w (.input value)).nextTimerId = w.nextTimerId ∧
    (step toLowerCase hostRows w (.input value)).timers.Sublist w.timers ∧
    (∀ id, w.debounceTimer = some id → id ≠ 0 →
      ∀ t ∈ (step toLowerCase hostRows w (.input value)).timers, t.id ≠ id) ∧
    (step toLowerCase hostRows w (.input value)).fetchCalls = w.fetchCalls ∧
    (step toLowerCase hostRows w (.input value)).inflight = w.inflight ∧
    (Reachable toLowerCase hostRows w → searchTimers (step toLowerCase hostRows w (.input value)) = []) := by
  obtain ⟨w1, hw1, heq⟩ := handleInput_eq { w with inputValue := value } value
  have hf := cancel_frame { w with inputValue := value }
  simp only [← hw1] at hf
  have hlen : (trim value).length = 0 := by rw [hempty]; rfl
  have hstep : step toLowerCase hostRows w (.input value) =
      showQueryMessage { w1 with lastQuery := "", lastResults := [] } := by
    show handleInput { w with inputValue := value } value = _
    rw [heq, if_pos hlen]
  rw [hstep]
  refine ⟨rfl, rfl, rfl, rfl, hf.2.2.2.2.2.2.2.2.1, hf.2.2.2.2.2.2.2.2.2.1,
    hf.2.2.2.2.2.2.2.2.2.2.1, hf.2.2.2.2.1, hf.2.2.2.1, ?_⟩
  intro hr
  have hi : Inv { w with inputValue := value } := (inv_of_reachable hr).frame rfl rfl rfl
  have hc := cancel_searchTimers hi
  simp only [← hw1] at hc
  exact hc.2.1

/-- C4 (witness): whitespace typed while the debounce timeout of "red" is pending. -/
theorem handleInput_empty_witness :
    trim " \t " = "" ∧
    (run asciiLowerCase quoteCuttingHost construct [.input "red"]).timers = [⟨1, .search "red"⟩] ∧
    (step asciiLowerCase quoteCuttingHost (run asciiLowerCase quoteCuttingHost construct [.input "red"]) (.input " \t ")).timers
      = [] ∧
    (step asciiLowerCase quoteCuttingHost (run asciiLowerCase quoteCuttingHost construct [.input "red"])
      (.input " \t ")).content = .queryMessage ∧
    (step asciiLowerCase quoteCuttingHost (run asciiLowerCase quoteCuttingHost construct [.input "red"])
      (.input " \t ")).shown = true :=
  have h := handleInput_empty asciiLowerCase quoteCuttingHost (run asciiLowerCase quoteCuttingHost construct [.input "red"])
    " \t " (by decide)
  ⟨by decide, by decide, by decide, h.2.2.1, h.2.2.2.1⟩

/-- C5: whatever was stored before and whatever the query, when the fetch
fails `performSearch` completes without raising, with the stored query "" and
the stored results empty, the no-matches message rendered and the dropdown
visible; this holds for the call as a whole and for the settlement event of
any suspended call. -/
theorem performSearch_failure (toLowerCase : String → String)
    (hostRows : List SearchResult → List ResultRow) (w : Widget) (query : String)
    (outcome : FetchOutcome) (hfail : FetchFails outcome) :
    (∃ w', performSearchResume toLowerCase hostRows (performSearch w query) query outcome = .ok w' ∧
      w'.lastQuery = "" ∧ w'.lastResults = [] ∧ w'.content = .noResults ∧
      w'.shown = true) ∧
    (∀ k, w.inflight[k]? = some query →
      (step toLowerCase hostRows w (.fetchSettled k outcome)).lastQuery = "" ∧
      (step toLowerCase hostRows w (.fetchSettled k outcome)).lastResults = [] ∧
      (step toLowerCase hostRows w (.fetchSettled k outcome)).content = .noResults ∧
      (step toLowerCase hostRows w (.fetchSettled k outcome)).shown = true) := by
  obtain ⟨e, he⟩ := (fetchSearchResults_error_iff toLowerCase query outcome).mpr hfail
  constructor
  · refine ⟨showNoResults { performSearch w query with lastQuery := "", lastResults := [] }
      query, ?_, rfl, rfl, rfl, rfl⟩
    simp only [performSearchResume, he]
  · intro k hk
    simp only [step, fetchSettled, hk, performSearchResume, he]
    exact ⟨rfl, rfl, rfl, rfl⟩

/-- C5 (witness): a response with `success: false` after a successful search. -/
theorem performSearch_failure_witness :
    FetchFails (.response 200 (.object false (some redDataset))) ∧
    (afterSearch "red" (successResponse 200 redDataset)).lastResults = redDataset ∧
    (∃ w', performSearchResume asciiLowerCase quoteCuttingHost
        (performSearch (afterSearch "red" (successResponse 200 redDataset)) "red") "red"
        (.response 200 (.object false (some redDataset))) = .ok w' ∧
      w'.lastQuery = "" ∧ w'.lastResults = [] ∧ w'.content = .noResults ∧
      w'.shown = true) :=
  ⟨by simp [FetchFails], by decide,
    (performSearch_failure asciiLowerCase quoteCuttingHost (afterSearch "red" (successResponse 200 redDataset))
      "red" (.response 200 (.object false (some redDataset))) (by simp [FetchFails])).1⟩

theorem handleFocus_lastQuery (hostRows : List SearchResult → List ResultRow) (w : Widget) (q : String) (hres : w.lastResults = []) :
    handleFocus hostRows { w with lastQuery := q } = { handleFocus hostRows w with lastQuery := q } := by
  have h0 : ¬ w.lastResults.length > 0 := by simp [hres]
  unfold handleFocus
  simp only [h0, if_false]
  split
  · rfl
  · split <;> rfl

/-- C7 (counterexample): after the NoMatches outcome of "zzz" on the Red Fox /
Red Car dataset a focus event does not redisplay the stored empty outcome: it
makes a new fetch and shows the loading message, exactly as it does after a
failed fetch. -/
theorem focus_after_noMatches_refetches :
    (afterSearch "zzz" (successResponse 200 redDataset)).content = .noResults ∧
    (afterSearch "zzz" (successResponse 200 redDataset)).lastQuery = "zzz" ∧
    (afterSearch "zzz" (successResponse 200 redDataset)).lastResults = [] ∧
    (afterSearch "zzz" .networkError).lastQuery = "" ∧
    ¬ ((step asciiLowerCase quoteCuttingHost (afterSearch "zzz" (successResponse 200 redDataset)) .focus).fetchCalls
        = (afterSearch "zzz" (successResponse 200 redDataset)).fetchCalls ∧
      (step asciiLowerCase quoteCuttingHost (afterSearch "zzz" .networkError) .focus).fetchCalls
        = (afterSearch "zzz" .networkError).fetchCalls + 1) ∧
    (step asciiLowerCase quoteCuttingHost (afterSearch "zzz" (successResponse 200 redDataset)) .focus).content
      = .loading ∧
    (step asciiLowerCase quoteCuttingHost (afterSearch "zzz" (successResponse 200 redDataset)) .focus).fetchCalls
      = (step asciiLowerCase quoteCuttingHost (afterSearch "zzz" .networkError) .focus).fetchCalls := by
  decide

/-- C7 (amended): a successful fetch whose filter keeps nothing and a failed
fetch leave the same visible state (no-matches message, dropdown visible) and
both store no results; the first stores the attempted query, the second "".
The two states differ in the stored query only, and so do the states after a
following focus event, which with non-empty input re-runs Search in both. -/
theorem noMatches_versus_failure (toLowerCase : String → String)
    (hostRows : List SearchResult → List ResultRow) (w : Widget) (k : Nat)
    (query : String) (status : Nat) (dataset : List SearchResult) (bad : FetchOutcome)
    (hk : w.inflight[k]? = some query) (hok : responseOk status = true)
    (hnone : ∀ e ∈ dataset, matchesQuery toLowerCase query e = false)
    (hbad : FetchFails bad) :
    (step toLowerCase hostRows w (.fetchSettled k (successResponse status dataset))).content
      = .noResults ∧
    (step toLowerCase hostRows w (.fetchSettled k (successResponse status dataset))).shown = true ∧
    (step toLowerCase hostRows w (.fetchSettled k bad)).content = .noResults ∧
    (step toLowerCase hostRows w (.fetchSettled k bad)).shown = true ∧
    (step toLowerCase hostRows w (.fetchSettled k (successResponse status dataset))).lastQuery = query ∧
    (step toLowerCase hostRows w (.fetchSettled k (successResponse status dataset))).lastResults = [] ∧
    (step toLowerCase hostRows w (.fetchSettled k bad)).lastQuery = "" ∧
    (step toLowerCase hostRows w (.fetchSettled k bad)).lastResults = [] ∧
    step toLowerCase hostRows w (.fetchSettled k (successResponse status dataset)) =
      { step toLowerCase hostRows w (.fetchSettled k bad) with lastQuery := query } ∧
    step toLowerCase hostRows
        (step toLowerCase hostRows w (.fetchSettled k (successResponse status dataset))) .focus =
      { step toLowerCase hostRows (step toLowerCase hostRows w (.fetchSettled k bad)) .focus with
        lastQuery := query } ∧
    (trim w.inputValue ≠ "" →
      (step toLowerCase hostRows
        (step toLowerCase hostRows w (.fetchSettled k (successResponse status dataset))) .focus).fetchCalls
        = w.fetchCalls + 1 ∧
      (step toLowerCase hostRows (step toLowerCase hostRows w (.fetchSettled k bad)) .focus).fetchCalls
        = w.fetchCalls + 1) := by
  obtain ⟨e, he⟩ := (fetchSearchResults_error_iff toLowerCase query bad).mpr hbad
  have hfilter : dataset.filter (matchesQuery toLowerCase query) = [] := by
    simp only [List.filter_eq_nil_iff]
    intro x hx
    simp [hnone x hx]
  have hgood : fetchSearchResults toLowerCase query (successResponse status dataset) =
      .ok [] := by
    simp [fetchSearchResults, fetchSearchResultsTry, successResponse, hok, hfilter]
  have hNo : step toLowerCase hostRows w (.fetchSettled k (successResponse status dataset)) =
      showNoResults { w with inflight := w.inflight.eraseIdx k, lastQuery := query,
                             lastResults := [] } query := by
    simp only [step, fetchSettled, hk, performSearchResume, hgood]
    rfl
  have hFail : step toLowerCase hostRows w (.fetchSettled k bad) =
      showNoResults { w with inflight := w.inflight.eraseIdx k, lastQuery := "",
                             lastResults := [] } query := by
    simp only [step, fetchSettled, hk, performSearchResume, he]
  have hfocus := handleFocus_lastQuery hostRows (step toLowerCase hostRows w (.fetchSettled k bad)) query
    (by rw [hFail]; rfl)
  have hsame : step toLowerCase hostRows w (.fetchSettled k (successResponse status dataset)) =
      { step toLowerCase hostRows w (.fetchSettled k bad) with lastQuery := query } := by
    rw [hNo, hFail]
    rfl
  have hboth : step toLowerCase hostRows
        (step toLowerCase hostRows w (.fetchSettled k (successResponse status dataset))) .focus =
      { step toLowerCase hostRows (step toLowerCase hostRows w (.fetchSettled k bad)) .focus with
        lastQuery := query } := by
    show handleFocus hostRows _ = { handleFocus hostRows _ with lastQuery := query }
    rw [hsame]
    exact hfocus
  refine ⟨by rw [hNo]; rfl, by rw [hNo]; rfl, by rw [hFail]; rfl, by rw [hFail]; rfl,
    by rw [hNo]; rfl, by rw [hNo]; rfl, by rw [hFail]; rfl, by rw [hFail]; rfl,
    hsame, hboth, ?_⟩
  intro htext
  have hfetch : (step toLowerCase hostRows (step toLowerCase hostRows w (.fetchSettled k bad)) .focus).fetchCalls
      = w.fetchCalls + 1 := by
    have h3 := (focus_step_search toLowerCase hostRows (step toLowerCase hostRows w (.fetchSettled k bad))
      (by rw [hFail]; exact htext) (by rw [hFail]; rfl))
    rw [h3, hFail]
    rfl
  exact ⟨by rw [hboth]; exact hfetch, hfetch⟩

/-- C7 (witness): query "zzz" on the Red Fox / Red Car dataset against a network error. -/
theorem noMatches_versus_failure_witness :
    (run asciiLowerCase quoteCuttingHost construct [.input "zzz", .timerExpiry 1]).inflight[0]? = some "zzz" ∧
    responseOk 200 = true ∧
    (∀ e ∈ redDataset, matchesQuery asciiLowerCase "zzz" e = false) ∧
    FetchFails .networkError ∧
    afterSearch "zzz" (successResponse 200 redDataset) =
      { afterSearch "zzz" .networkError with lastQuery := "zzz" } ∧
    (afterSearch "zzz" (successResponse 200 redDataset)).lastResults = [] ∧
    (step asciiLowerCase quoteCuttingHost (afterSearch "zzz" (successResponse 200 redDataset)) .focus).fetchCalls
      = 2 :=
  have h := noMatches_versus_failure asciiLowerCase quoteCuttingHost
    (run asciiLowerCase quoteCuttingHost construct [.input "zzz", .timerExpiry 1]) 0 "zzz" 200 redDataset
    .networkError (by decide) (by decide) (by decide) trivial
  ⟨by decide, by decide, by decide, trivial, h.2.2.2.2.2.2.2.2.1, h.2.2.2.2.2.1,
    (h.2.2.2.2.2.2.2.2.2.2 (by decide)).1⟩

/-- C8 (counterexample): with no selection and no rendered row, ArrowDown does
not move the selection to 0; it stays at -1. -/
theorem arrowDown_without_rows :
    construct.selectedIndex = -1 ∧ rowCount construct = 0 ∧
    ¬ ((step asciiLowerCase quoteCuttingHost construct (.keydown .arrowDown)).selectedIndex = 0) ∧
    (step asciiLowerCase quoteCuttingHost construct (.keydown .arrowDown)).selectedIndex = -1 := by
  decide

/-- C8 (amended): ArrowDown sets the selection to `min (i + 1) lastIndex`;
with no selection it moves to 0 and highlights the first row when a row is
rendered, and stays at -1 when none is; at the last index it stays there.
ArrowUp sets the selection to `max (i - 1) (-1)` and stays at -1 from -1.
Neither key changes the stored query, the stored results, the pending
timeouts, the field `debounceTimer` or the visibility. -/
theorem arrow_keys (toLowerCase : String → String)
    (hostRows : List SearchResult → List ResultRow) (w : Widget) :
    (step toLowerCase hostRows w (.keydown .arrowDown)).selectedIndex =
      min (w.selectedIndex + 1) ((rowCount w : Int) - 1) ∧
    (w.selectedIndex = -1 → 0 < rowCount w →
      (step toLowerCase hostRows w (.keydown .arrowDown)).selectedIndex = 0 ∧
      ∃ row, (step toLowerCase hostRows w (.keydown .arrowDown)).content.rows[0]? = some row ∧
        row.selected = true) ∧
    (w.selectedIndex = -1 → rowCount w = 0 →
      (step toLowerCase hostRows w (.keydown .arrowDown)).selectedIndex = -1) ∧
    (w.selectedIndex = (rowCount w : Int) - 1 →
      (step toLowerCase hostRows w (.keydown .arrowDown)).selectedIndex = (rowCount w : Int) - 1) ∧
    (step toLowerCase hostRows w (.keydown .arrowUp)).selectedIndex = max (w.selectedIndex - 1) (-1) ∧
    (w.selectedIndex = -1 → (step toLowerCase hostRows w (.keydown .arrowUp)).selectedIndex = -1) ∧
    (∀ key, key = Key.arrowDown ∨ key = Key.arrowUp →
      (step toLowerCase hostRows w (.keydown key)).lastQuery = w.lastQuery ∧
      (step toLowerCase hostRows w (.keydown key)).lastResults = w.lastResults ∧
      (step toLowerCase hostRows w (.keydown key)).timers = w.timers ∧
      (step toLowerCase hostRows w (.keydown key)).debounceTimer = w.debounceTimer ∧
      (step toLowerCase hostRows w (.keydown key)).shown = w.shown ∧
      rowCount (step toLowerCase hostRows w (.keydown key)) = rowCount w) := by
  have hdown : step toLowerCase hostRows w (.keydown .arrowDown) = updateSelection
      { w with selectedIndex := min (w.selectedIndex + 1) ((rowCount w : Int) - 1) } := rfl
  have hup : step toLowerCase hostRows w (.keydown .arrowUp) = updateSelection
      { w with selectedIndex := max (w.selectedIndex - 1) (-1) } := rfl
  have hd : (step toLowerCase hostRows w (.keydown .arrowDown)).selectedIndex =
        min (w.selectedIndex + 1) ((rowCount w : Int) - 1) ∧
      (step toLowerCase hostRows w (.keydown .arrowDown)).lastQuery = w.lastQuery ∧
      (step toLowerCase hostRows w (.keydown .arrowDown)).lastResults = w.lastResults ∧
      (step toLowerCase hostRows w (.keydown .arrowDown)).timers = w.timers ∧
      (step toLowerCase hostRows w (.keydown .arrowDown)).debounceTimer = w.debounceTimer ∧
      (step toLowerCase hostRows w (.keydown .arrowDown)).shown = w.shown ∧
      (step toLowerCase hostRows w (.keydown .arrowDown)).fetchCalls = w.fetchCalls ∧
      (step toLowerCase hostRows w (.keydown .arrowDown)).inflight = w.inflight ∧
      (step toLowerCase hostRows w (.keydown .arrowDown)).opened = w.opened ∧
      rowCount (step toLowerCase hostRows w (.keydown .arrowDown)) = rowCount w :=
    updateSelection_frame
      { w with selectedIndex := min (w.selectedIndex + 1) ((rowCount w : Int) - 1) }
  have hu : (step toLowerCase hostRows w (.keydown .arrowUp)).selectedIndex =
        max (w.selectedIndex - 1) (-1) ∧
      (step toLowerCase hostRows w (.keydown .arrowUp)).lastQuery = w.lastQuery ∧
      (step toLowerCase hostRows w (.keydown .arrowUp)).lastResults = w.lastResults ∧
      (step toLowerCase hostRows w (.keydown .arrowUp)).timers = w.timers ∧
      (step toLowerCase hostRows w (.keydown .arrowUp)).debounceTimer = w.debounceTimer ∧
      (step toLowerCase hostRows w (.keydown .arrowUp)).shown = w.shown ∧
      (step toLowerCase hostRows w (.keydown .arrowUp)).fetchCalls = w.fetchCalls ∧
      (step toLowerCase hostRows w (.keydown .arrowUp)).inflight = w.inflight ∧
      (step toLowerCase hostRows w (.keydown .arrowUp)).opened = w.opened ∧
      rowCount (step toLowerCase hostRows w (.keydown .arrowUp)) = rowCount w :=
    updateSelection_frame { w with selectedIndex := max (w.selectedIndex - 1) (-1) }
  refine ⟨hd.1, ?_, ?_, ?_, hu.1, ?_, ?_⟩
  · intro hsel hrows
    have h0 : min (w.selectedIndex + 1) ((rowCount w : Int) - 1) = 0 := by omega
    refine ⟨hd.1.trans h0, ?_⟩
    rw [hdown]
    exact updateSelection_first _ h0 hrows
  · intro hsel hrows
    rw [hd.1]
    omega
  · intro hsel
    rw [hd.1]
    omega
  · intro hsel
    rw [hu.1]
    omega
  · intro key hkey
    rcases hkey with rfl | rfl
    · exact ⟨hd.2.1, hd.2.2.1, hd.2.2.2.1, hd.2.2.2.2.1, hd.2.2.2.2.2.1,
        hd.2.2.2.2.2.2.2.2.2⟩
    · exact ⟨hu.2.1, hu.2.2.1, hu.2.2.2.1, hu.2.2.2.2.1, hu.2.2.2.2.2.1,
        hu.2.2.2.2.2.2.2.2.2⟩

/-- C8 (witness): the arrow keys on the two rows rendered for "red". -/
theorem arrow_keys_witness :
    (afterSearch "red" (successResponse 200 redDataset)).selectedIndex = -1 ∧
    rowCount (afterSearch "red" (successResponse 200 redDataset)) = 2 ∧
    (step asciiLowerCase quoteCuttingHost (afterSearch "red" (successResponse 200 redDataset))
      (.keydown .arrowDown)).selectedIndex = 0 ∧
    (step asciiLowerCase quoteCuttingHost (afterSearch "red" (successResponse 200 redDataset))
      (.keydown .arrowUp)).selectedIndex = -1 ∧
    (run asciiLowerCase quoteCuttingHost (afterSearch "red" (successResponse 200 redDataset))
      [.keydown .arrowDown, .keydown .arrowDown, .keydown .arrowDown]).selectedIndex = 1 :=
  have h := arrow_keys asciiLowerCase quoteCuttingHost (afterSearch "red" (successResponse 200 redDataset))
  ⟨by decide, by decide, (h.2.1 (by decide) (by decide)).1, h.2.2.2.2.2.1 (by decide),
    by decide⟩

/-- C10: `hideDropdown` leaves the dropdown hidden with `selectedIndex` -1 and
the stored query and results unchanged, and so does every event that hides:
expiry of a blur timeout, a click outside the wrapper, Escape, a click on a
rendered row, and Enter on a selected row. -/
theorem hide_resets_selection (toLowerCase : String → String)
    (hostRows : List SearchResult → List ResultRow) (w : Widget) :
    HiddenFrom w (hideDropdown w) ∧
    (∀ id t, w.timers.find? (fun t => t.id == id) = some t → t.action = .hide →
      HiddenFrom w (step toLowerCase hostRows w (.timerExpiry id))) ∧
    HiddenFrom w (step toLowerCase hostRows w (.click false)) ∧
    HiddenFrom w (step toLowerCase hostRows w (.keydown .escape)) ∧
    (∀ k row, w.content.rows[k]? = some row →
      HiddenFrom w (step toLowerCase hostRows w (.rowClick k))) ∧
    (∀ row, 0 ≤ w.selectedIndex → w.content.rows[w.selectedIndex.toNat]? = some row →
      HiddenFrom w (step toLowerCase hostRows w (.keydown .enter))) := by
  refine ⟨⟨rfl, rfl, rfl, rfl⟩, ?_, ⟨rfl, rfl, rfl, rfl⟩, ⟨rfl, rfl, rfl, rfl⟩, ?_, ?_⟩
  · intro id t hfind haction
    have : step toLowerCase hostRows w (.timerExpiry id) = hideDropdown (clearTimeout w id) := by
      show timerExpiry w id = _
      simp [timerExpiry, hfind, haction]
    rw [this]
    exact ⟨rfl, rfl, rfl, rfl⟩
  · intro k row hrow
    have : step toLowerCase hostRows w (.rowClick k) =
        hideDropdown { w with opened := w.opened ++ [row.url] } := by
      show rowClick w k = _
      simp [rowClick, hrow]
    rw [this]
    exact ⟨rfl, rfl, rfl, rfl⟩
  · intro row hsel hrow
    have hnot : ¬ w.selectedIndex < 0 := by omega
    have : step toLowerCase hostRows w (.keydown .enter) =
        hideDropdown { w with opened := w.opened ++ [row.url] } := by
      show handleKeydown w .enter = _
      simp [handleKeydown, rowAt, hsel, hnot, hrow]
    rw [this]
    exact ⟨rfl, rfl, rfl, rfl⟩

/-- C10 (witness): blur, then expiry of the blur timeout, with the second row
rendered for "red" selected. -/
theorem hide_resets_selection_witness :
    (run asciiLowerCase quoteCuttingHost (afterSearch "red" (successResponse 200 redDataset))
      [.rowHover 1, .blur]).selectedIndex = 1 ∧
    (run asciiLowerCase quoteCuttingHost (afterSearch "red" (successResponse 200 redDataset))
      [.rowHover 1, .blur]).timers = [⟨2, .hide⟩] ∧
    HiddenFrom (run asciiLowerCase quoteCuttingHost (afterSearch "red" (successResponse 200 redDataset))
        [.rowHover 1, .blur])
      (step asciiLowerCase quoteCuttingHost (run asciiLowerCase quoteCuttingHost (afterSearch "red" (successResponse 200 redDataset))
        [.rowHover 1, .blur]) (.timerExpiry 2)) :=
  ⟨by decide, by decide,
    (hide_resets_selection asciiLowerCase quoteCuttingHost
      (run asciiLowerCase quoteCuttingHost (afterSearch "red" (successResponse 200 redDataset))
        [.rowHover 1, .blur])).2.1 2 ⟨2, .hide⟩ (by decide) rfl⟩


/-- C6 (counterexample): a successful search for "cat" that matches nothing
leaves a stored outcome, yet focus re-runs Search instead of redisplaying it;
and after a successful search that stored the URL `b.com/?q="x"`, the row
redisplayed on focus carries the `data-url` `b.com/?q=`, not the stored URL. -/
theorem focus_without_redisplay :
    (afterSearch "cat" (successResponse 200 redDataset)).lastQuery = "cat" ∧
    (afterSearch "cat" (successResponse 200 redDataset)).lastResults = [] ∧
    trim (afterSearch "cat" (successResponse 200 redDataset)).inputValue = "cat" ∧
    ¬ ((step asciiLowerCase quoteCuttingHost
          (afterSearch "cat" (successResponse 200 redDataset)) .focus).fetchCalls =
        (afterSearch "cat" (successResponse 200 redDataset)).fetchCalls) ∧
    (step asciiLowerCase quoteCuttingHost
      (afterSearch "cat" (successResponse 200 redDataset)) .focus).content = .loading ∧
    (afterSearch "car" (successResponse 200 quotedDataset)).lastResults =
      [⟨"Red Car", "vehicle", quotedUrl⟩] ∧
    (step asciiLowerCase quoteCuttingHost
      (afterSearch "car" (successResponse 200 quotedDataset)) .focus).content =
      .results [⟨0, "b.com/?q=", "Red Car", "vehicle", false⟩] ∧
    ¬ ((step asciiLowerCase quoteCuttingHost
          (afterSearch "car" (successResponse 200 quotedDataset)) .focus).content =
        .results (renderRows (afterSearch "car" (successResponse 200 quotedDataset)).lastResults))
    := by
  decide

/-- C6 (amended): on focus, an empty trimmed input shows the prompt message;
with text and a non-empty stored result list the markup of the stored
results is rendered again, without a fetch and without changing what is
stored, and when every stored field is plain text the rows are the stored
entries in order, row `i` carrying index `i` and the fields of the `i`-th
entry; with text and an empty stored result list Search is re-run at once;
and a fetch is made in that last case only. -/
theorem focus_redisplays (toLowerCase : String → String)
    (hostRows : List SearchResult → List ResultRow) (w : Widget) :
    (trim w.inputValue = "" →
      (step toLowerCase hostRows w .focus).content = .queryMessage ∧
      (step toLowerCase hostRows w .focus).shown = true) ∧
    (trim w.inputValue ≠ "" → w.lastResults ≠ [] →
      (step toLowerCase hostRows w .focus).content =
        .results (renderedRows hostRows w.lastResults) ∧
      (step toLowerCase hostRows w .focus).shown = true ∧
      (step toLowerCase hostRows w .focus).fetchCalls = w.fetchCalls ∧
      (step toLowerCase hostRows w .focus).inflight = w.inflight ∧
      (step toLowerCase hostRows w .focus).lastQuery = w.lastQuery ∧
      (step toLowerCase hostRows w .focus).lastResults = w.lastResults ∧
      (plainResults w.lastResults = true →
        (step toLowerCase hostRows w .focus).content.rows.length = w.lastResults.length ∧
        ∀ (i : Nat) (r : SearchResult), w.lastResults[i]? = some r →
          (step toLowerCase hostRows w .focus).content.rows[i]? =
            some ({ index := (i : Int), url := r.url, phrase := r.phrase,
                    subtext := r.subtext, selected := false } : ResultRow))) ∧
    (trim w.inputValue ≠ "" → w.lastResults = [] →
      step toLowerCase hostRows w .focus = performSearch w (trim w.inputValue) ∧
      (step toLowerCase hostRows w .focus).content = .loading ∧
      (step toLowerCase hostRows w .focus).fetchCalls = w.fetchCalls + 1 ∧
      (step toLowerCase hostRows w .focus).inflight = w.inflight ++ [trim w.inputValue]) ∧
    ((step toLowerCase hostRows w .focus).fetchCalls ≠ w.fetchCalls ↔
      trim w.inputValue ≠ "" ∧ w.lastResults = []) := by
  have hlen := length_eq_zero_iff (trim w.inputValue)
  have hres : w.lastResults.length > 0 ↔ w.lastResults ≠ [] := List.length_pos
  by_cases h0 : trim w.inputValue = ""
  · have hstep : step toLowerCase hostRows w .focus = showQueryMessage w := by
      show handleFocus hostRows w = _
      simp [handleFocus, h0]
    rw [hstep]
    refine ⟨fun _ => ⟨rfl, rfl⟩, fun h => absurd h0 h, fun h => absurd h0 h, ?_⟩
    simp [showQueryMessage, showDropdown, h0]
  · have hl : ¬ (trim w.inputValue).length = 0 := fun h => h0 (hlen.mp h)
    by_cases h1 : w.lastResults = []
    · have hstep : step toLowerCase hostRows w .focus =
          performSearch w (trim w.inputValue) := focus_step_search toLowerCase hostRows w h0 h1
      rw [hstep]
      refine ⟨fun h => absurd h h0, fun _ h => absurd h1 h, fun _ _ => ⟨rfl, rfl, rfl, rfl⟩, ?_⟩
      simp [performSearch, showLoading, showDropdown, h0, h1]
    · have hstep : step toLowerCase hostRows w .focus =
          displayResults hostRows w w.lastResults w.lastQuery := by
        show handleFocus hostRows w = _
        simp [handleFocus, hl, hres.mpr h1]
      have hf := displayResults_frame hostRows w w.lastResults w.lastQuery
      have hne : ¬ (w.lastResults.length == 0) = true := by
        simpa using h1
      have hcontent : (displayResults hostRows w w.lastResults w.lastQuery).content =
          .results (renderedRows hostRows w.lastResults) := by
        unfold displayResults
        rw [if_neg hne]
        rfl
      rw [hstep]
      refine ⟨fun h => absurd h h0, fun _ _ => ⟨hcontent, hf.2.2.2.2.2.2.2.2.2.2,
        hf.2.2.2.2.2.2.2.1, hf.2.2.2.2.2.2.1, hf.2.2.2.2.1, hf.2.2.2.2.2.1, ?_⟩,
        fun _ h => absurd h h1, ?_⟩
      · intro hplain
        have hrows : (displayResults hostRows w w.lastResults w.lastQuery).content.rows =
            renderRows w.lastResults := displayResults_rows hostRows w _ _ hplain
        rw [hrows]
        refine ⟨renderFrom_length 0 _, ?_⟩
        intro i r hi
        simp [renderRows, renderFrom_getElem?, hi]
      · simp [hf.2.2.2.2.2.2.2.1, h1]

/-- C6 (witness): focus after a successful search for "red" with two stored results. -/
theorem focus_redisplays_witness :
    (afterSearch "red" (successResponse 200 redDataset)).lastResults = redDataset ∧
    plainResults redDataset = true ∧
    (afterSearch "red" (successResponse 200 redDataset)).fetchCalls = 1 ∧
    (step asciiLowerCase quoteCuttingHost
      (afterSearch "red" (successResponse 200 redDataset)) .focus).content =
      .results [⟨0, "a.com", "Red Fox", "animal", false⟩,
        ⟨1, "b.com", "Red Car", "vehicle", false⟩] ∧
    (step asciiLowerCase quoteCuttingHost
      (afterSearch "red" (successResponse 200 redDataset)) .focus).fetchCalls =
      (afterSearch "red" (successResponse 200 redDataset)).fetchCalls ∧
    (step asciiLowerCase quoteCuttingHost
      (afterSearch "red" (successResponse 200 redDataset)) .focus).lastResults =
      (afterSearch "red" (successResponse 200 redDataset)).lastResults ∧
    (step asciiLowerCase quoteCuttingHost
      (afterSearch "red" (successResponse 200 redDataset)) .focus).content.rows.length =
      (afterSearch "red" (successResponse 200 redDataset)).lastResults.length :=
  have h := (focus_redisplays asciiLowerCase quoteCuttingHost
    (afterSearch "red" (successResponse 200 redDataset))).2.1 (by decide) (by decide)
  ⟨by decide, by decide, by decide, by decide, h.2.2.1, h.2.2.2.2.2.1,
    (h.2.2.2.2.2.2 (by decide)).1⟩

/-- C9 (counterexample): the displayed result has the URL `b.com/?q="x"`; its
row carries the `data-url` `b.com/?q=`, and Enter on it opens `b.com/?q=`,
not the URL of the result. -/
theorem enter_opens_cut_url :
    (afterSearch "car" (successResponse 200 quotedDataset)).lastResults =
      [⟨"Red Car", "vehicle", quotedUrl⟩] ∧
    (afterSearch "car" (successResponse 200 quotedDataset)).content =
      .results [⟨0, "b.com/?q=", "Red Car", "vehicle", false⟩] ∧
    (step asciiLowerCase quoteCuttingHost
      (afterSearch "car" (successResponse 200 quotedDataset))
      (.keydown .arrowDown)).selectedIndex = 0 ∧
    (run asciiLowerCase quoteCuttingHost
      (afterSearch "car" (successResponse 200 quotedDataset))
      [.keydown .arrowDown, .keydown .enter]).opened = ["b.com/?q="] ∧
    ¬ ((run asciiLowerCase quoteCuttingHost
        (afterSearch "car" (successResponse 200 quotedDataset))
        [.keydown .arrowDown, .keydown .enter]).opened = [quotedUrl]) := by
  decide

/-- C9 (amended): Enter activates a result exactly when `selectedIndex` is at
least 0 and a rendered row exists at that index; it then opens the `data-url`
of that row, hides the dropdown and resets the selection to -1, keeping what
is stored; otherwise it changes nothing.  In a state reached with plain-text
datasets the row at `selectedIndex` carries that index and the URL of the
stored result at it. -/
theorem enter_activates (toLowerCase : String → String)
    (hostRows : List SearchResult → List ResultRow) (w : Widget) :
    (∀ row, 0 ≤ w.selectedIndex → w.content.rows[w.selectedIndex.toNat]? = some row →
      (step toLowerCase hostRows w (.keydown .enter)).opened = w.opened ++ [row.url] ∧
      (step toLowerCase hostRows w (.keydown .enter)).shown = false ∧
      (step toLowerCase hostRows w (.keydown .enter)).selectedIndex = -1 ∧
      (step toLowerCase hostRows w (.keydown .enter)).lastQuery = w.lastQuery ∧
      (step toLowerCase hostRows w (.keydown .enter)).lastResults = w.lastResults) ∧
    (w.selectedIndex < 0 ∨ w.content.rows[w.selectedIndex.toNat]? = none →
      step toLowerCase hostRows w (.keydown .enter) = w) ∧
    ((step toLowerCase hostRows w (.keydown .enter)).opened ≠ w.opened ↔
      0 ≤ w.selectedIndex ∧ ∃ row, w.content.rows[w.selectedIndex.toNat]? = some row) ∧
    (ReachablePlain toLowerCase hostRows w →
      ∀ row, 0 ≤ w.selectedIndex → w.content.rows[w.selectedIndex.toNat]? = some row →
        row.index = w.selectedIndex ∧
        ∃ r, w.lastResults[w.selectedIndex.toNat]? = some r ∧ row.url = r.url) := by
  have hyes : ∀ row, 0 ≤ w.selectedIndex → w.content.rows[w.selectedIndex.toNat]? = some row →
      step toLowerCase hostRows w (.keydown .enter) =
        hideDropdown { w with opened := w.opened ++ [row.url] } := by
    intro row hsel hrow
    have hnot : ¬ w.selectedIndex < 0 := by omega
    show handleKeydown w .enter = _
    simp [handleKeydown, rowAt, hsel, hnot, hrow]
  have hno : w.selectedIndex < 0 ∨ w.content.rows[w.selectedIndex.toNat]? = none →
      step toLowerCase hostRows w (.keydown .enter) = w := by
    intro hcase
    show handleKeydown w .enter = _
    rcases hcase with hneg | hnone
    · have : ¬ w.selectedIndex ≥ 0 := by omega
      simp [handleKeydown, this]
    · by_cases hsel : w.selectedIndex ≥ 0
      · have hnot : ¬ w.selectedIndex < 0 := by omega
        simp [handleKeydown, rowAt, hsel, hnot, hnone]
      · simp [handleKeydown, hsel]
  refine ⟨?_, hno, ?_, ?_⟩
  · intro row hsel hrow
    rw [hyes row hsel hrow]
    exact ⟨rfl, rfl, rfl, rfl, rfl⟩
  · constructor
    · intro hne
      by_contra hcon
      apply hne
      rw [hno]
      by_cases hsel : 0 ≤ w.selectedIndex
      · right
        cases hr : w.content.rows[w.selectedIndex.toNat]? with
        | none => rfl
        | some row => exact absurd ⟨hsel, row, hr⟩ hcon
      · left
        omega
    · rintro ⟨hsel, row, hrow⟩
      rw [hyes row hsel hrow]
      simp [hideDropdown]
  · intro hr row hsel hrow
    have := row_of_inv (rowsInv_of_reachable hr) _ row hrow
    refine ⟨?_, this.2.2⟩
    rw [this.1]
    omega

/-- C9 (witness): Enter on the second row rendered for "red" opens "b.com". -/
theorem enter_activates_witness :
    (run asciiLowerCase quoteCuttingHost (afterSearch "red" (successResponse 200 redDataset))
      [.keydown .arrowDown, .keydown .arrowDown]).selectedIndex = 1 ∧
    (step asciiLowerCase quoteCuttingHost
      (run asciiLowerCase quoteCuttingHost (afterSearch "red" (successResponse 200 redDataset))
        [.keydown .arrowDown, .keydown .arrowDown]) (.keydown .enter)).opened =
      (run asciiLowerCase quoteCuttingHost (afterSearch "red" (successResponse 200 redDataset))
        [.keydown .arrowDown, .keydown .arrowDown]).opened ++ ["b.com"] ∧
    (step asciiLowerCase quoteCuttingHost
      (run asciiLowerCase quoteCuttingHost (afterSearch "red" (successResponse 200 redDataset))
        [.keydown .arrowDown, .keydown .arrowDown]) (.keydown .enter)).selectedIndex = -1 ∧
    step asciiLowerCase quoteCuttingHost (afterSearch "red" (successResponse 200 redDataset))
      (.keydown .enter) = afterSearch "red" (successResponse 200 redDataset) ∧
    ReachablePlain asciiLowerCase quoteCuttingHost
      (run asciiLowerCase quoteCuttingHost (afterSearch "red" (successResponse 200 redDataset))
        [.keydown .arrowDown, .keydown .arrowDown]) ∧
    (∃ r, (run asciiLowerCase quoteCuttingHost
        (afterSearch "red" (successResponse 200 redDataset))
        [.keydown .arrowDown, .keydown .arrowDown]).lastResults[1]? = some r ∧
      "b.com" = r.url) :=
  have hplain : ReachablePlain asciiLowerCase quoteCuttingHost
      (run asciiLowerCase quoteCuttingHost (afterSearch "red" (successResponse 200 redDataset))
        [.keydown .arrowDown, .keydown .arrowDown]) :=
    reachablePlain_run
      (reachablePlain_run ReachablePlain.construct
        [.input "red", .timerExpiry 1, .fetchSettled 0 (successResponse 200 redDataset)]
        (by
          intro e he
          simp only [List.mem_cons, List.mem_singleton, List.not_mem_nil, or_false] at he
          rcases he with rfl | rfl | rfl
          · trivial
          · trivial
          · show plainResults redDataset = true
            decide))
      [.keydown .arrowDown, .keydown .arrowDown]
      (by
        intro e he
        simp only [List.mem_cons, List.mem_singleton, List.not_mem_nil, or_false] at he
        rcases he with rfl | rfl <;> trivial)
  have h := enter_activates asciiLowerCase quoteCuttingHost
    (run asciiLowerCase quoteCuttingHost (afterSearch "red" (successResponse 200 redDataset))
      [.keydown .arrowDown, .keydown .arrowDown])
  have h1 := h.1 ⟨1, "b.com", "Red Car", "vehicle", true⟩ (by decide) (by decide)
  ⟨by decide, h1.1, h1.2.2.1,
    (enter_activates asciiLowerCase quoteCuttingHost
      (afterSearch "red" (successResponse 200 redDataset))).2.1 (Or.inl (by decide)),
    hplain,
    (h.2.2.2 hplain ⟨1, "b.com", "Red Car", "vehicle", true⟩ (by decide) (by decide)).2⟩

theorem step_selLower (toLowerCase : String → String)
    (hostRows : List SearchResult → List ResultRow) {w : Widget} (h : RowsInv w) (e : Event) :
    -1 ≤ (step toLowerCase hostRows w e).selectedIndex := by
  cases e with
  | fetchSettled k outcome =>
    rw [(step_selectedIndex toLowerCase hostRows w).2.2.2.1 k outcome]
    exact h.selLower
  | input value => exact (rowsInv_step toLowerCase hostRows h (.input value) trivial).selLower
  | focus => exact (rowsInv_step toLowerCase hostRows h .focus trivial).selLower
  | blur => exact (rowsInv_step toLowerCase hostRows h .blur trivial).selLower
  | keydown key => exact (rowsInv_step toLowerCase hostRows h (.keydown key) trivial).selLower
  | click inside => exact (rowsInv_step toLowerCase hostRows h (.click inside) trivial).selLower
  | rowClick k => exact (rowsInv_step toLowerCase hostRows h (.rowClick k) trivial).selLower
  | rowHover k => exact (rowsInv_step toLowerCase hostRows h (.rowHover k) trivial).selLower
  | timerExpiry id => exact (rowsInv_step toLowerCase hostRows h (.timerExpiry id) trivial).selLower

/-- With markup in a phrase the rows are not one per entry: for the phrase
`injectedRowMarkup` two rows are rendered for one entry, and the pointer
entering the second sets `selectedIndex` to -7. -/
theorem selectedIndex_from_injected_row :
    plainResults injectedDataset = false ∧
    rowCount (run asciiLowerCase nestedRowHost construct
      [.input "note", .timerExpiry 1, .fetchSettled 0 (successResponse 200 injectedDataset)])
      = 2 ∧
    (run asciiLowerCase nestedRowHost construct
      [.input "note", .timerExpiry 1, .fetchSettled 0 (successResponse 200 injectedDataset),
        .rowHover 1]).selectedIndex = -7 := by
  decide

/-- C1 (counterexample): with the second of two rows selected, clearing the
input replaces the rows by the prompt message and leaves `selectedIndex` at 1
with no row rendered; the same happens under the loading message, under the
no-matches message and under a shorter result list. -/
theorem selectedIndex_survives_render :
    Reachable asciiLowerCase quoteCuttingHost
      (step asciiLowerCase quoteCuttingHost secondRowHovered (.input "")) ∧
    (step asciiLowerCase quoteCuttingHost secondRowHovered (.input "")).content
      = .queryMessage ∧
    rowCount (step asciiLowerCase quoteCuttingHost secondRowHovered (.input "")) = 0 ∧
    (step asciiLowerCase quoteCuttingHost secondRowHovered (.input "")).selectedIndex = 1 ∧
    ¬ ((step asciiLowerCase quoteCuttingHost secondRowHovered (.input "")).selectedIndex ≤
        (rowCount (step asciiLowerCase quoteCuttingHost secondRowHovered (.input "")) : Int)
          - 1) ∧
    (run asciiLowerCase quoteCuttingHost secondRowHovered
      [.input "fox", .timerExpiry 2]).content = .loading ∧
    (run asciiLowerCase quoteCuttingHost secondRowHovered
      [.input "fox", .timerExpiry 2]).selectedIndex = 1 ∧
    (run asciiLowerCase quoteCuttingHost secondRowHovered [.input "zzz", .timerExpiry 2,
      .fetchSettled 0 (successResponse 200 redDataset)]).content = .noResults ∧
    (run asciiLowerCase quoteCuttingHost secondRowHovered [.input "zzz", .timerExpiry 2,
      .fetchSettled 0 (successResponse 200 redDataset)]).selectedIndex = 1 ∧
    rowCount (run asciiLowerCase quoteCuttingHost secondRowHovered [.input "fox", .timerExpiry 2,
      .fetchSettled 0 (successResponse 200 redDataset)]) = 1 ∧
    (run asciiLowerCase quoteCuttingHost secondRowHovered [.input "fox", .timerExpiry 2,
      .fetchSettled 0 (successResponse 200 redDataset)]).selectedIndex = 1 :=
  ⟨Reachable.step _ (Reachable.step _ (reachable_run Reachable.construct _)),
    by decide, by decide, by decide, by decide, by decide, by decide, by decide, by decide,
    by decide, by decide⟩

/-- C1 (amended): the events that replace the rendered rows (input, focus,
settlement of a fetch, expiry of a search timeout) leave `selectedIndex` as
it was, in every state.  In every state reached with plain-text datasets
`selectedIndex` is at least -1; every event leaves it at least -1, and at
most the last rendered index or no larger than before; ArrowDown leaves it at
most the last rendered index; and `-1 ≤ selectedIndex ≤ rows - 1` is
preserved by every event after which at least as many rows are rendered as
before. -/
theorem selectedIndex_bounds (toLowerCase : String → String)
    (hostRows : List SearchResult → List ResultRow) (w : Widget) :
    ((∀ value,
        (step toLowerCase hostRows w (.input value)).selectedIndex = w.selectedIndex) ∧
      (step toLowerCase hostRows w .focus).selectedIndex = w.selectedIndex ∧
      (∀ k outcome,
        (step toLowerCase hostRows w (.fetchSettled k outcome)).selectedIndex
          = w.selectedIndex) ∧
      (∀ id t, w.timers.find? (fun t => t.id == id) = some t → t.action ≠ .hide →
        (step toLowerCase hostRows w (.timerExpiry id)).selectedIndex = w.selectedIndex)) ∧
    (ReachablePlain toLowerCase hostRows w →
      -1 ≤ w.selectedIndex ∧
      (step toLowerCase hostRows w (.keydown .arrowDown)).selectedIndex ≤
        (rowCount (step toLowerCase hostRows w (.keydown .arrowDown)) : Int) - 1 ∧
      ∀ e : Event,
        -1 ≤ (step toLowerCase hostRows w e).selectedIndex ∧
        ((step toLowerCase hostRows w e).selectedIndex ≤
            (rowCount (step toLowerCase hostRows w e) : Int) - 1 ∨
          (step toLowerCase hostRows w e).selectedIndex ≤ w.selectedIndex) ∧
        (w.selectedIndex ≤ (rowCount w : Int) - 1 →
          rowCount w ≤ rowCount (step toLowerCase hostRows w e) →
          (step toLowerCase hostRows w e).selectedIndex ≤
            (rowCount (step toLowerCase hostRows w e) : Int) - 1)) := by
  have hs := step_selectedIndex toLowerCase hostRows w
  refine ⟨⟨hs.1, hs.2.1, hs.2.2.2.1, hs.2.2.2.2.1⟩, ?_⟩
  intro hw
  have h := rowsInv_of_reachable hw
  refine ⟨h.selLower, ?_, ?_⟩
  · have hf := updateSelection_frame
      { w with selectedIndex := min (w.selectedIndex + 1) ((rowCount w : Int) - 1) }
    have h1 : (step toLowerCase hostRows w (.keydown .arrowDown)).selectedIndex =
        min (w.selectedIndex + 1) ((rowCount w : Int) - 1) := hf.1
    have h2 : rowCount (step toLowerCase hostRows w (.keydown .arrowDown)) = rowCount w :=
      hf.2.2.2.2.2.2.2.2.2
    rw [h1, h2]
    omega
  · intro e
    have hsel := step_selection toLowerCase hostRows h e
    refine ⟨step_selLower toLowerCase hostRows h e, hsel, ?_⟩
    intro hb hrows
    rcases hsel with hsel | hsel <;> omega

/-- C1 (witness): ArrowUp from the second of the two rows rendered for "red",
and an input event that leaves the selection where it was. -/
theorem selectedIndex_bounds_witness :
    ReachablePlain asciiLowerCase quoteCuttingHost secondRowHovered ∧
    secondRowHovered.selectedIndex = 1 ∧
    rowCount secondRowHovered = 2 ∧
    -1 ≤ secondRowHovered.selectedIndex ∧
    (step asciiLowerCase quoteCuttingHost secondRowHovered (.keydown .arrowUp)).selectedIndex ≤
      (rowCount (step asciiLowerCase quoteCuttingHost secondRowHovered (.keydown .arrowUp)) : Int)
        - 1 ∧
    (step asciiLowerCase quoteCuttingHost secondRowHovered (.input "")).selectedIndex =
      secondRowHovered.selectedIndex :=
  have hr : ReachablePlain asciiLowerCase quoteCuttingHost secondRowHovered :=
    ReachablePlain.step _
      (reachablePlain_run ReachablePlain.construct
        [.input "red", .timerExpiry 1, .fetchSettled 0 (successResponse 200 redDataset)]
        (by
          intro e he
          simp only [List.mem_cons, List.mem_singleton, List.not_mem_nil, or_false] at he
          rcases he with rfl | rfl | rfl
          · trivial
          · trivial
          · show plainResults redDataset = true
            decide))
      trivial
  have h := selectedIndex_bounds asciiLowerCase quoteCuttingHost secondRowHovered
  ⟨hr, by decide, by decide, (h.2 hr).1,
    ((h.2 hr).2.2 (.keydown .arrowUp)).2.2 (by decide) (by decide), h.1.1 ""⟩

end SearchInterface
